import Mathlib

/-!
Verification development for the taxonomic-reconciliation ETL core of the
gull.to repository: a shallow embedding, in Lean, of the scientific-name
normalizer (`genus-adjustments`), the two CSV row parsers (`csv-parser`),
the two join strategies (`join-logic`), and the mapping transformer
(`mapping-transform`), together with theorems about them.

Conventions of the embedding:
- TypeScript strings are Lean `String`; machine-level details of JS strings
  (UTF-16 code units) do not matter for the properties below because all
  data involved is plain text.
- The external CSV tokenizer (`d3-dsv`'s `csvParse`, an external library) is
  not embedded: parsers take the list of already-tokenized rows, each row an
  association list of column-name/value pairs, exactly the shape `csvParse`
  returns. JS property lookup `r[k]` is association-list lookup;
  `k in r` is key presence.
- JS `Date.parse` (a host builtin) is abstracted as a Boolean parameter
  `dateOk` wherever the source consults it; every theorem below is
  insensitive to the concrete choice.
- JS `Set`/`Map` iteration order (insertion order) is modelled explicitly
  with first-occurrence deduplicated lists; `Map.get` after repeated `set`
  is last-write-wins lookup.
-/

namespace GullTo

/-- The JS whitespace class `\s` restricted to the ASCII characters that can
occur in the CSV sources: space, tab, line feed, carriage return, vertical
tab, form feed. -/
def isWS (c : Char) : Bool :=
  c = ' ' || c = '\t' || c = '\n' || c = '\r' || c = Char.ofNat 11 || c = Char.ofNat 12

/-- JS `String.prototype.trim`: remove leading and trailing whitespace. -/
def jsTrim (s : String) : String :=
  ⟨((s.data.dropWhile isWS).reverse.dropWhile isWS).reverse⟩

/-- Maximal whitespace-free runs of a character list: the pieces of
`name.trim().replace(/\s+/g, ' ')` before they are rejoined. -/
def wordsOf (l : List Char) : List (List Char) :=
  (List.splitOnP isWS l).filter (fun w => w ≠ [])

/-- Rejoin words with single spaces. -/
def joinWords : List (List Char) → List Char
  | [] => []
  | [w] => w
  | w :: ws => w ++ ' ' :: joinWords ws

/-- `name.trim().replace(/\s+/g, ' ')` from `normalizeScientificName` in
`csv-parser`: trim, then collapse each whitespace run to a single space. -/
def cleanName (s : String) : String :=
  ⟨joinWords (wordsOf s.data)⟩

/-- One entry of the versioned genus-correction table
(`genus-adjustments.data.ts`). The provenance fields (`reason`,
`ebird_version`, `ibp_version`) are free-text metadata never read by any
logic and are omitted. `from`/`to` are renamed `fromName`/`toName` because
`from` is a Lean keyword. -/
structure GenusAdjustmentRule where
  fromName : String
  toName : String
deriving DecidableEq

/-- The five rules of `GENUS_ADJUSTMENT_RULES_V1`. -/
def GENUS_ADJUSTMENT_RULES_V1 : List GenusAdjustmentRule :=
  [ ⟨"Astur cooperii", "Accipiter cooperii"⟩,
    ⟨"Astur bicolor", "Accipiter bicolor"⟩,
    ⟨"Astur chilensis", "Accipiter chilensis"⟩,
    ⟨"Astur gundlachi", "Accipiter gundlachi"⟩,
    ⟨"Astur gentilis", "Accipiter gentilis"⟩ ]

/-- `GENUS_ADJUSTMENT_MAP.get(name)`: the map is built by inserting every
rule in order, so the last rule with a given `from` wins; lookup therefore
searches the reversed rule list. -/
def genusAdjustmentMapGet (s : String) : Option String :=
  (GENUS_ADJUSTMENT_RULES_V1.reverse.find? (fun r => r.fromName = s)).map
    (fun r => r.toName)

/-- `applyGenusAdjustments`: `GENUS_ADJUSTMENT_MAP.get(scientificName) ||
scientificName`. The JS `||` falls back to the input also when the stored
target is the empty string. -/
def applyGenusAdjustments (s : String) : String :=
  match genusAdjustmentMapGet s with
  | some t => if t = "" then s else t
  | none => s

/-- `normalizeScientificName` from `csv-parser`: collapse whitespace, then
apply the genus-correction table. -/
def normalizeScientificName (s : String) : String :=
  applyGenusAdjustments (cleanName s)

/-- Character class `[A-Z]`. -/
def isUpperAZ (c : Char) : Bool := 'A' ≤ c && c ≤ 'Z'

/-- Character class `[a-z]`. -/
def isLowerAZ (c : Char) : Bool := 'a' ≤ c && c ≤ 'z'

/-- Character class `[0-9]`. -/
def isDigit09 (c : Char) : Bool := '0' ≤ c && c ≤ '9'

/-- `isValidAlpha4Code` from `domain/types`: `/^[A-Z]{4}$/.test(input)`. -/
def isValidAlpha4Code (s : String) : Bool :=
  s.data.length == 4 && s.data.all isUpperAZ

/-- `isValidEBirdCode` from `domain/types`:
`/^[a-z0-9xy]+$/.test(input) && 4 <= input.length <= 8` (note `x` and `y`
are already inside `a-z`). -/
def isValidEBirdCode (s : String) : Bool :=
  s.data.all (fun c => isLowerAZ c || isDigit09 c) &&
    decide (4 ≤ s.data.length) && decide (s.data.length ≤ 8)

/-- `isValidScientificName` from `domain/types`:
`/^[A-Z][a-z]+ [a-z]+$/.test(input)` — strict two-token binomial shape.
The greedy `[a-z]+` run is exact here because `[a-z]` and the literal
space are disjoint. -/
def isValidScientificName (s : String) : Bool :=
  match s.data with
  | [] => false
  | c :: rest =>
    isUpperAZ c &&
      (let run1 := rest.takeWhile isLowerAZ
       let rem1 := rest.dropWhile isLowerAZ
       !run1.isEmpty &&
         match rem1 with
         | ' ' :: rem2 => !rem2.isEmpty && rem2.all isLowerAZ
         | _ => false)

/-- JS `s.includes(sub)`: substring containment. -/
def jsIncludes (s sub : String) : Bool :=
  s.data.tails.any (fun t => sub.data.isPrefixOf t)

/-- Tail of the group-level aggregate pattern of `parseIBPCSV`
(`/(gen\.?,?\s*sp\.?\)?)/i`) after the mandatory `gen`: an optional dot, an
optional comma, any whitespace, then `sp` (case-insensitive). The trailing
`\.?\)?` of the regex is optional and never affects whether a match
exists. Greedy matching of the optional pieces is exact because none of
`.`, `,`, whitespace can begin `sp`. -/
def genSpTail (l : List Char) : Bool :=
  let l1 := match l with
    | '.' :: t => t
    | _ => l
  let l2 := match l1 with
    | ',' :: t => t
    | _ => l1
  match l2.dropWhile isWS with
  | s :: p :: _ => s.toLower = 's' && p.toLower = 'p'
  | _ => false

/-- Does the group-level pattern match starting at the head of `l`? -/
def matchGenSpAt (l : List Char) : Bool :=
  match l with
  | g :: e :: n :: rest =>
    g.toLower = 'g' && e.toLower = 'e' && n.toLower = 'n' && genSpTail rest
  | _ => false

/-- `groupLevelPattern.test(scientificNameRaw)` from `parseIBPCSV`. -/
def containsGenSp (s : String) : Bool :=
  s.data.tails.any matchGenSpAt

/-! ## CSV parsers (`csv-parser`)

A `Row` is one record object as produced by the external `csvParse`
tokenizer: column name/value pairs. -/

/-- One tokenized CSV data row. -/
abbrev Row := List (String × String)

/-- JS property read `r[k]` with the `String(… || '')` coercion applied by
the parsers: a missing key reads as the empty string. -/
def rowGet (r : Row) (k : String) : String :=
  match r.find? (fun kv => kv.1 = k) with
  | some kv => kv.2
  | none => ""

/-- JS `k in r`: key presence, regardless of the stored value. -/
def rowHas (r : Row) (k : String) : Bool :=
  (r.find? (fun kv => kv.1 = k)).isSome

/-- `String(r[k] || '').trim()` as used for every field read in both
parsers. -/
def rowGetTrim (r : Row) (k : String) : String :=
  jsTrim (rowGet r k)

/-- `CSVValidationErrorType` from `csv-parser`. -/
inductive CSVErrorType where
  | MISSING_COLUMNS
  | INVALID_SCIENTIFIC_NAME
  | INVALID_ALPHA4_CODE
  | INVALID_EBIRD_CODE
  | EMPTY_REQUIRED_FIELD
  | MALFORMED_ROW
deriving DecidableEq

/-- `CSVValidationError` (the free-text `message` field is omitted; `row`
is 1-based for data rows, 0 for structural errors). -/
structure CSVValidationError where
  etype : CSVErrorType
  row : Nat
  value : String
deriving DecidableEq

/-- `CSVParseStats`. -/
structure CSVParseStats where
  totalRows : Nat
  validRecords : Nat
  skippedRecords : Nat
  errorRecords : Nat
deriving DecidableEq

/-- `CSVParseResult<T>`. -/
structure CSVParseResult (T : Type) where
  success : Bool
  records : List T
  errors : List CSVValidationError
  stats : CSVParseStats
deriving DecidableEq

/-- `EBirdRawRecord`. The `category` union type of the source is carried as
a plain string, exactly as the unchecked cast in the parser does. -/
structure EBirdRawRecord where
  category : String
  speciesCode : String
  scientificName : String
  commonName : String
deriving DecidableEq

/-- `IBPRawRecord`. -/
structure IBPRawRecord where
  alpha4Code : String
  scientificName : String
  commonName : String
  spec6Code : String
deriving DecidableEq

/-- The `expectedColumns` list of `parseEBirdCSV`. -/
def eBirdExpectedColumns : List String :=
  [ "TAXON_ORDER", "CATEGORY", "SPECIES_CODE", "TAXON_CONCEPT_ID",
    "PRIMARY_COM_NAME", "SCI_NAME", "ORDER", "FAMILY", "SPECIES_GROUP",
    "REPORT_AS" ]

/-- `expectedColumns.filter((c) => !(c in firstRow))` of `parseEBirdCSV`. -/
def eBirdMissingColumns (rows : List Row) : List String :=
  eBirdExpectedColumns.filter (fun c => !rowHas (rows.headD []) c)

/-- Mutable state of the `rows.forEach` loop in `parseEBirdCSV`: the 0-based
index of the next row plus the accumulated outputs and counters. -/
structure EBirdFoldState where
  idx : Nat
  records : List EBirdRawRecord
  errors : List CSVValidationError
  validRecords : Nat
  skippedRecords : Nat
  errorRecords : Nat
deriving DecidableEq

/-- One iteration of the `parseEBirdCSV` row loop. The final branch mirrors
the source's `try` block: `createEBirdCode` cannot throw there (its
predicate was just checked), so the block succeeds exactly when
`createScientificName(normalizedScientificName)` does not throw, i.e. when
the normalized name passes `isValidScientificName`; otherwise the `catch`
records a `MALFORMED_ROW` error. -/
def eBirdRowStep (filterSpeciesOnly : Bool) (st : EBirdFoldState) (r : Row) :
    EBirdFoldState :=
  let category := rowGetTrim r "CATEGORY"
  let speciesCodeRaw := rowGetTrim r "SPECIES_CODE"
  let commonNameRaw := rowGetTrim r "PRIMARY_COM_NAME"
  let scientificNameRaw := rowGetTrim r "SCI_NAME"
  if speciesCodeRaw = "" || scientificNameRaw = "" then
    { st with
        idx := st.idx + 1
        errorRecords := st.errorRecords + 1
        errors := st.errors ++
          [⟨.EMPTY_REQUIRED_FIELD, st.idx + 1,
            if speciesCodeRaw = "" then scientificNameRaw else speciesCodeRaw⟩] }
  else if filterSpeciesOnly && category ≠ "species" then
    { st with
        idx := st.idx + 1
        skippedRecords := st.skippedRecords + 1 }
  else
    let norm := normalizeScientificName scientificNameRaw
    if !isValidScientificName norm && !jsIncludes scientificNameRaw " x " &&
        !jsIncludes scientificNameRaw "/" &&
        !jsIncludes scientificNameRaw " sp." then
      { st with
          idx := st.idx + 1
          errorRecords := st.errorRecords + 1
          errors := st.errors ++
            [⟨.INVALID_SCIENTIFIC_NAME, st.idx + 1, scientificNameRaw⟩] }
    else if jsIncludes scientificNameRaw " sp." then
      { st with
          idx := st.idx + 1
          skippedRecords := st.skippedRecords + 1 }
    else if !isValidEBirdCode speciesCodeRaw then
      { st with
          idx := st.idx + 1
          errorRecords := st.errorRecords + 1
          errors := st.errors ++
            [⟨.INVALID_EBIRD_CODE, st.idx + 1, speciesCodeRaw⟩] }
    else if isValidScientificName norm then
      { st with
          idx := st.idx + 1
          validRecords := st.validRecords + 1
          records := st.records ++
            [⟨category, speciesCodeRaw, norm, commonNameRaw⟩] }
    else
      { st with
          idx := st.idx + 1
          errorRecords := st.errorRecords + 1
          errors := st.errors ++
            [⟨.MALFORMED_ROW, st.idx + 1, speciesCodeRaw⟩] }

/-- `parseEBirdCSV`, taking the tokenized rows. The `csvParse`-throws path
of the source is outside the embedding (it is a failure of the external
tokenizer); the `rows.length === 0` and missing-columns aborts and the row
loop are embedded faithfully. -/
def parseEBirdCSV (rows : List Row) (filterSpeciesOnly : Bool) :
    CSVParseResult EBirdRawRecord :=
  if rows.isEmpty then
    { success := false, records := [],
      errors := [⟨.MALFORMED_ROW, 0, ""⟩],
      stats := ⟨0, 0, 0, 0⟩ }
  else if !(eBirdMissingColumns rows).isEmpty then
    { success := false, records := [],
      errors := [⟨.MISSING_COLUMNS, 0, ""⟩],
      stats := ⟨rows.length, 0, 0, 0⟩ }
  else
    let final := rows.foldl (eBirdRowStep filterSpeciesOnly) ⟨0, [], [], 0, 0, 0⟩
    { success := final.errors.isEmpty,
      records := final.records,
      errors := final.errors,
      stats := ⟨rows.length, final.validRecords, final.skippedRecords,
        final.errorRecords⟩ }

/-- Mutable state of the `rows.forEach` loop in `parseIBPCSV`. -/
structure IBPFoldState where
  idx : Nat
  records : List IBPRawRecord
  errors : List CSVValidationError
  validRecords : Nat
  skippedRecords : Nat
  errorRecords : Nat
deriving DecidableEq

/-- One iteration of the `parseIBPCSV` row loop. Note the source order:
empty-field check, subspecies filter, alpha4-code validation, group-level
skip, scientific-name validation, record construction (whose `try` cannot
throw: both factory predicates were just checked). -/
def ibpRowStep (excludeSubspecies : Bool) (st : IBPFoldState) (r : Row) :
    IBPFoldState :=
  let spMarker := rowGetTrim r "SP"
  let alpha4CodeRaw := rowGetTrim r "SPEC"
  let commonNameRaw := rowGetTrim r "COMMONNAME"
  let scientificNameRaw := rowGetTrim r "SCINAME"
  let spec6CodeRaw := rowGetTrim r "SPEC6"
  if alpha4CodeRaw = "" || scientificNameRaw = "" then
    { st with
        idx := st.idx + 1
        errorRecords := st.errorRecords + 1
        errors := st.errors ++
          [⟨.EMPTY_REQUIRED_FIELD, st.idx + 1,
            if alpha4CodeRaw = "" then scientificNameRaw else alpha4CodeRaw⟩] }
  else if excludeSubspecies && spMarker = "+" then
    { st with
        idx := st.idx + 1
        skippedRecords := st.skippedRecords + 1 }
  else if !isValidAlpha4Code alpha4CodeRaw then
    { st with
        idx := st.idx + 1
        errorRecords := st.errorRecords + 1
        errors := st.errors ++
          [⟨.INVALID_ALPHA4_CODE, st.idx + 1, alpha4CodeRaw⟩] }
  else if containsGenSp scientificNameRaw then
    { st with
        idx := st.idx + 1
        skippedRecords := st.skippedRecords + 1 }
  else
    let norm := normalizeScientificName scientificNameRaw
    if !isValidScientificName norm then
      { st with
          idx := st.idx + 1
          errorRecords := st.errorRecords + 1
          errors := st.errors ++
            [⟨.INVALID_SCIENTIFIC_NAME, st.idx + 1, scientificNameRaw⟩] }
    else
      { st with
          idx := st.idx + 1
          validRecords := st.validRecords + 1
          records := st.records ++
            [⟨alpha4CodeRaw, norm, commonNameRaw, spec6CodeRaw⟩] }

/-- `parseIBPCSV`, taking the tokenized rows. Unlike `parseEBirdCSV` there
is no required-column header check in the source. -/
def parseIBPCSV (rows : List Row) (excludeSubspecies : Bool) :
    CSVParseResult IBPRawRecord :=
  if rows.isEmpty then
    { success := false, records := [],
      errors := [⟨.MALFORMED_ROW, 0, ""⟩],
      stats := ⟨0, 0, 0, 0⟩ }
  else
    let final := rows.foldl (ibpRowStep excludeSubspecies) ⟨0, [], [], 0, 0, 0⟩
    { success := final.errors.isEmpty,
      records := final.records,
      errors := final.errors,
      stats := ⟨rows.length, final.validRecords, final.skippedRecords,
        final.errorRecords⟩ }

/-! ## Join logic (`join-logic`) -/

/-- `JoinedRecord`. -/
structure JoinedRecord where
  alpha4Code : String
  ebird6Code : String
  scientificName : String
  commonNameEBird : String
  commonNameIBP : String
deriving DecidableEq

/-- The `variantPolicy` union type. -/
inductive VariantPolicy where
  | species
  | speciesSubspecies
  | all
deriving DecidableEq

/-- `JoinOptions` merged with `defaultJoinOptions` (the merge of partial JS
options objects is modelled by default field values). `allowPartialMatches`
is carried but, as in the source, never read. -/
structure JoinOptions where
  strictMode : Bool := false
  allowPartialMatches : Bool := true
  validateCommonNames : Bool := false
  variantPolicy : VariantPolicy := .all
deriving DecidableEq

/-- `JoinStatistics`. -/
structure JoinStatistics where
  totalEBirdRecords : Nat
  totalIBPRecords : Nat
  successfulMatches : Nat
  unmatchedEBirdRecords : Nat
  unmatchedIBPRecords : Nat
  duplicateScientificNames : Nat
deriving DecidableEq

/-- `JoinResult`. -/
structure JoinResult where
  success : Bool
  matched : List JoinedRecord
  unmatchedEBird : List EBirdRawRecord
  unmatchedIBP : List IBPRawRecord
  duplicateScientificNames : List String
  stats : JoinStatistics
deriving DecidableEq

/-- Insertion-ordered deduplication: the element order of a JS `Set`/`Map
.keys()` built by repeated insertion. -/
def firstDedup (l : List String) : List String :=
  l.foldl (fun acc s => if s ∈ acc then acc else acc ++ [s]) []

/-- One iteration of the duplicate detection in `joinByScientificName`:
the accumulator carries the shared insertion-ordered `duplicates` set and
the per-side `seen` set; a name already seen is added to the duplicates. -/
def dupStep (acc : List String × List String) (n : String) :
    List String × List String :=
  ((if n ∈ acc.2 ∧ n ∉ acc.1 then acc.1 ++ [n] else acc.1),
    (if n ∈ acc.2 then acc.2 else acc.2 ++ [n]))

/-- One side's pass of the duplicate detection in `joinByScientificName`:
fold over the side's scientific names with a fresh per-side `seen` set. -/
def dupPass (names : List String) (dups : List String) : List String :=
  (names.foldl dupStep (dups, [])).1

/-- The `duplicates` set of `joinByScientificName` after both passes. -/
def joinDuplicates (ebird : List EBirdRawRecord) (ibp : List IBPRawRecord) :
    List String :=
  dupPass (ibp.map (fun r => r.scientificName))
    (dupPass (ebird.map (fun r => r.scientificName)) [])

/-- `Map.get` after every record was `set` in order: the last record with
the given scientific name wins. -/
def lastEBirdWith (ebird : List EBirdRawRecord) (s : String) :
    Option EBirdRawRecord :=
  ebird.reverse.find? (fun r => r.scientificName = s)

/-- Last-write-wins lookup for the IBP side. -/
def lastIBPWith (ibp : List IBPRawRecord) (s : String) :
    Option IBPRawRecord :=
  ibp.reverse.find? (fun r => r.scientificName = s)

/-- `new Set([...ebird keys, ...ibp keys])`: the iteration order of
`allScientificNames`. Each map's key list is its side's names deduplicated
to first occurrences; the set concatenates and deduplicates again. -/
def allScientificNames (ebird : List EBirdRawRecord)
    (ibp : List IBPRawRecord) : List String :=
  firstDedup
    (firstDedup (ebird.map (fun r => r.scientificName)) ++
      firstDedup (ibp.map (fun r => r.scientificName)))

/-- The matched list of the exact join: the loop over
`allScientificNames` with the source's match-branch condition. -/
def joinMatched (ebird : List EBirdRawRecord) (ibp : List IBPRawRecord)
    (opts : JoinOptions) : List JoinedRecord :=
  (allScientificNames ebird ibp).filterMap (fun s =>
    match lastEBirdWith ebird s, lastIBPWith ibp s with
    | some e, some i =>
      if opts.validateCommonNames && e.commonName ≠ i.commonName &&
          opts.strictMode then
        none
      else
        some (⟨i.alpha4Code, e.speciesCode, e.scientificName,
          e.commonName, i.commonName⟩ : JoinedRecord)
    | _, _ => none)

/-- The unmatched-eBird list of the exact join. -/
def joinUnmatchedEBird (ebird : List EBirdRawRecord)
    (ibp : List IBPRawRecord) (opts : JoinOptions) : List EBirdRawRecord :=
  (allScientificNames ebird ibp).filterMap (fun s =>
    match lastEBirdWith ebird s, lastIBPWith ibp s with
    | some e, some i =>
      if opts.validateCommonNames && e.commonName ≠ i.commonName &&
          opts.strictMode then
        some e
      else
        none
    | some e, none => some e
    | _, _ => none)

/-- The unmatched-IBP list of the exact join. -/
def joinUnmatchedIBP (ebird : List EBirdRawRecord)
    (ibp : List IBPRawRecord) (opts : JoinOptions) : List IBPRawRecord :=
  (allScientificNames ebird ibp).filterMap (fun s =>
    match lastEBirdWith ebird s, lastIBPWith ibp s with
    | some e, some i =>
      if opts.validateCommonNames && e.commonName ≠ i.commonName &&
          opts.strictMode then
        some i
      else
        none
    | none, some i => some i
    | _, _ => none)

/-- `joinByScientificName` (the exact join). The single loop over
`allScientificNames` pushes into three independent arrays; it is rendered
as the three comprehensions above, each with the source's branch
conditions. -/
def joinByScientificName (ebird : List EBirdRawRecord)
    (ibp : List IBPRawRecord) (opts : JoinOptions) : JoinResult :=
  if ebird.isEmpty && ibp.isEmpty then
    { success := true, matched := [], unmatchedEBird := [],
      unmatchedIBP := [], duplicateScientificNames := [],
      stats := ⟨0, 0, 0, 0, 0, 0⟩ }
  else if opts.strictMode && !(joinDuplicates ebird ibp).isEmpty then
    { success := false, matched := [],
      unmatchedEBird := ebird, unmatchedIBP := ibp,
      duplicateScientificNames := joinDuplicates ebird ibp,
      stats := ⟨ebird.length, ibp.length, 0, ebird.length, ibp.length,
        (joinDuplicates ebird ibp).length⟩ }
  else
    { success := (joinDuplicates ebird ibp).isEmpty,
      matched := joinMatched ebird ibp opts,
      unmatchedEBird := joinUnmatchedEBird ebird ibp opts,
      unmatchedIBP := joinUnmatchedIBP ebird ibp opts,
      duplicateScientificNames := joinDuplicates ebird ibp,
      stats := ⟨ebird.length, ibp.length,
        (joinMatched ebird ibp opts).length,
        (joinUnmatchedEBird ebird ibp opts).length,
        (joinUnmatchedIBP ebird ibp opts).length,
        (joinDuplicates ebird ibp).length⟩ }

/-- `toBinomial` inside `joinByScientificNameVariants`:
`name.split(' ').slice(0, 2).join(' ')`. JS `split(' ')` splits on every
single space (empty pieces included), so the rendering uses `splitOn`. -/
def toBinomial (s : String) : String :=
  ⟨List.intercalate [' '] ((s.data.splitOn ' ').take 2)⟩

/-- Priority rank of an eBird record in the variant-aware join:
`species` 0, `issf` 1, everything else 2. -/
def rankOf (r : EBirdRawRecord) : Nat :=
  if r.category = "species" then 0 else if r.category = "issf" then 1 else 2

/-- The comparator `(a, b) => rank(a) - rank(b)` as a Boolean order. -/
def rankLe (a b : EBirdRawRecord) : Bool :=
  decide (rankOf a ≤ rankOf b)

/-- `[...ebirdRecords].sort((a, b) => rank(a) - rank(b))`: JS `sort` is
required (ES2019) to be stable, which `mergeSort` is. -/
def ebirdPrioritySorted (ebird : List EBirdRawRecord) :
    List EBirdRawRecord :=
  ebird.mergeSort rankLe

/-- The unique stable order for the three-valued priority comparator,
following the spec's words — "full species before subspecies before
slash/hybrid forms", ties "pinned to stable input-row order": the rank-0
records in input order, then rank-1, then rank-2. Proved equal to
`ebirdPrioritySorted`. -/
def rankBuckets (l : List EBirdRawRecord) : List EBirdRawRecord :=
  l.filter (fun r => rankOf r == 0) ++ l.filter (fun r => rankOf r == 1) ++
    l.filter (fun r => rankOf r == 2)

/-- The variant-policy filter applied at the top of the loop body: `true`
exactly when the two `continue` guards of the source do not fire. -/
def policyAllows (p : VariantPolicy) (cat : String) : Bool :=
  match p with
  | .species => cat = "species"
  | .speciesSubspecies => cat = "species" || cat = "issf"
  | .all => true

/-- The `ibpFull.get(name)` bucket, with each IBP record tagged by its
position in the input array. JS `Set` membership is object identity, so
records are tracked by index. Bucket order is input order (records are
pushed while iterating `ibpRecords`). -/
def ibpFullBucket (ibp : List IBPRawRecord) (name : String) :
    List (Nat × IBPRawRecord) :=
  ibp.enum.filter (fun p => p.2.scientificName = name)

/-- The `ibpByBinomial.get(bin)` bucket, index-tagged, in input order. -/
def ibpBinomialBucket (ibp : List IBPRawRecord) (bin : String) :
    List (Nat × IBPRawRecord) :=
  ibp.enum.filter (fun p => toBinomial p.2.scientificName = bin)

/-- Mutable state of the loop in `joinByScientificNameVariants`:
`consumedIBP` (a set of input positions) plus the two output arrays. -/
structure VarJoinState where
  consumed : List Nat
  matched : List JoinedRecord
  unmatchedEBird : List EBirdRawRecord
deriving DecidableEq

/-- The banding record chosen for one checklist record: the first
unconsumed record of the exact full-name bucket if any, otherwise the
first unconsumed record of the truncated-binomial bucket. -/
def varChosen (ibp : List IBPRawRecord) (consumed : List Nat)
    (e : EBirdRawRecord) : Option (Nat × IBPRawRecord) :=
  match (ibpFullBucket ibp e.scientificName).find?
      (fun p => !consumed.contains p.1) with
  | some p => some p
  | none => (ibpBinomialBucket ibp (toBinomial e.scientificName)).find?
      (fun p => !consumed.contains p.1)

/-- One iteration of the `joinByScientificNameVariants` loop: skip the
record if the variant policy excludes its category; otherwise consume the
chosen banding record and emit a joined record, or record the checklist
record as unmatched when nothing was chosen. -/
def varStep (ibp : List IBPRawRecord) (opts : JoinOptions)
    (st : VarJoinState) (e : EBirdRawRecord) : VarJoinState :=
  if !policyAllows opts.variantPolicy e.category then st
  else
    match varChosen ibp st.consumed e with
    | some p =>
      { st with
          consumed := st.consumed ++ [p.1]
          matched := st.matched ++
            [⟨p.2.alpha4Code, e.speciesCode, e.scientificName, e.commonName,
              p.2.commonName⟩] }
    | none =>
      { st with unmatchedEBird := st.unmatchedEBird ++ [e] }

/-- The final loop state of `joinByScientificNameVariants`. -/
def varFinal (ebird : List EBirdRawRecord) (ibp : List IBPRawRecord)
    (opts : JoinOptions) : VarJoinState :=
  (ebirdPrioritySorted ebird).foldl (varStep ibp opts) ⟨[], [], []⟩

/-- The IBP records never consumed by the loop, in input order. -/
def varUnmatchedIBP (ebird : List EBirdRawRecord) (ibp : List IBPRawRecord)
    (opts : JoinOptions) : List IBPRawRecord :=
  (ibp.enum.filter
    (fun p => !(varFinal ebird ibp opts).consumed.contains p.1)).map
    (fun p => p.2)

/-- `joinByScientificNameVariants` (the variant-aware join). -/
def joinByScientificNameVariants (ebird : List EBirdRawRecord)
    (ibp : List IBPRawRecord) (opts : JoinOptions) : JoinResult :=
  { success := true,
    matched := (varFinal ebird ibp opts).matched,
    unmatchedEBird := (varFinal ebird ibp opts).unmatchedEBird,
    unmatchedIBP := varUnmatchedIBP ebird ibp opts,
    duplicateScientificNames := [],
    stats := ⟨ebird.length, ibp.length,
      (varFinal ebird ibp opts).matched.length,
      (varFinal ebird ibp opts).unmatchedEBird.length,
      (varUnmatchedIBP ebird ibp opts).length, 0⟩ }

/-! ## Mapping transformer (`mapping-transform`) -/

/-- `MappingRecord` from `domain/types` (all seven canonical fields). -/
structure MappingRecord where
  alpha4 : String
  ebird6 : String
  common_name : String
  scientific_name : String
  source : String
  source_version : String
  updated_at : String
deriving DecidableEq

/-- `MappingValidationErrorType`. -/
inductive MappingValidationErrorType where
  | MISSING_REQUIRED_FIELD
  | INVALID_FIELD_FORMAT
  | INVALID_DATE_FORMAT
  | DUPLICATE_ALPHA4_CODE
  | INVALID_SOURCE_METADATA
deriving DecidableEq

/-- `MappingValidationError` (`message`/`value` free text omitted). -/
structure MappingValidationError where
  etype : MappingValidationErrorType
  field : String
deriving DecidableEq

/-- `preferredCommonNameSource` values. -/
inductive CommonNameSource where
  | ebird
  | ibp
deriving DecidableEq

/-- `MappingTransformOptions`; the optional preferred side is `none` when
absent. -/
structure MappingTransformOptions where
  source : String
  sourceVersion : String
  updatedAt : String
  preferredCommonNameSource : Option CommonNameSource := none
deriving DecidableEq

/-- `MappingTransformStats`. -/
structure MappingTransformStats where
  totalInputRecords : Nat
  successfulTransformations : Nat
  validationErrors : Nat
  nameConflicts : Nat
  duplicateAlpha4Codes : Nat
deriving DecidableEq

/-- `MappingTransformResult`. The `metadata.transformedAt` wall-clock
timestamp is not modelled; `recordCount` and the echoed source info are. -/
structure MappingTransformResult where
  success : Bool
  mappingRecords : List MappingRecord
  errors : List MappingValidationError
  stats : MappingTransformStats
  metadataSource : String
  metadataVersion : String
  metadataRecordCount : Nat
deriving DecidableEq

/-- `validateMappingSchema` on a constructed `MappingRecord` (every field
present and a string, so the `in`/`undefined`/`null` clauses reduce to
emptiness checks), parameterized by the `Date.parse` success predicate.
Errors are produced in source order: the seven required-field checks, then
the `alpha4`, `ebird6`, `scientific_name` format checks, then the
`updated_at` date check. -/
def validateMappingSchema (dateOk : String → Bool) (m : MappingRecord) :
    List MappingValidationError :=
  (([ ("alpha4", m.alpha4), ("ebird6", m.ebird6),
      ("common_name", m.common_name), ("scientific_name", m.scientific_name),
      ("source", m.source), ("source_version", m.source_version),
      ("updated_at", m.updated_at) ].filterMap
    (fun f => if f.2 = "" then
        some (⟨.MISSING_REQUIRED_FIELD, f.1⟩ : MappingValidationError)
      else none)) ++
    (if !isValidAlpha4Code m.alpha4 then
      [(⟨.INVALID_FIELD_FORMAT, "alpha4"⟩ : MappingValidationError)]
    else []) ++
    (if !isValidEBirdCode m.ebird6 then
      [(⟨.INVALID_FIELD_FORMAT, "ebird6"⟩ : MappingValidationError)]
    else []) ++
    (if !isValidScientificName m.scientific_name then
      [(⟨.INVALID_FIELD_FORMAT, "scientific_name"⟩ : MappingValidationError)]
    else [])) ++
    (if !dateOk m.updated_at then
      [(⟨.INVALID_DATE_FORMAT, "updated_at"⟩ : MappingValidationError)]
    else [])

/-- The `INVALID_SOURCE_METADATA` errors collected before any record is
processed: empty (after trim) `source` or `sourceVersion`, or an
unparseable `updatedAt` (JS: falsy string or `Date.parse` NaN). -/
def transformOptionsErrors (dateOk : String → Bool)
    (options : MappingTransformOptions) : List MappingValidationError :=
  (if jsTrim options.source = "" then
    [(⟨.INVALID_SOURCE_METADATA, "source"⟩ : MappingValidationError)]
  else []) ++
    (if jsTrim options.sourceVersion = "" then
      [(⟨.INVALID_SOURCE_METADATA, "sourceVersion"⟩ : MappingValidationError)]
    else []) ++
    (if options.updatedAt = "" || !dateOk options.updatedAt then
      [(⟨.INVALID_SOURCE_METADATA, "updatedAt"⟩ : MappingValidationError)]
    else [])

/-- Mutable state of the record loop in `transformToMappingRecords`. -/
structure TransformFoldState where
  seenAlpha4 : List String
  mappingRecords : List MappingRecord
  errors : List MappingValidationError
  successfulTransformations : Nat
  validationErrors : Nat
  nameConflicts : Nat
  duplicateAlpha4Codes : Nat
deriving DecidableEq

/-- Conflict resolution of the loop: when the two common names disagree,
use the side named by `preferredCommonNameSource`, defaulting to the eBird
side. -/
def transformCommonName (options : MappingTransformOptions)
    (r : JoinedRecord) : String :=
  if r.commonNameEBird ≠ r.commonNameIBP then
    if options.preferredCommonNameSource = some CommonNameSource.ibp then
      r.commonNameIBP
    else r.commonNameEBird
  else r.commonNameEBird

/-- The candidate `MappingRecord` assembled for one joined pair. -/
def transformCandidate (options : MappingTransformOptions)
    (r : JoinedRecord) : MappingRecord :=
  ⟨r.alpha4Code, r.ebird6Code, transformCommonName options r,
    r.scientificName, options.source, options.sourceVersion,
    options.updatedAt⟩

/-- One iteration of the `transformToMappingRecords` loop. The
null/undefined record guard of the source cannot fire on a typed record
and the `try` block cannot throw (record construction is plain object
assembly), so the branches are: duplicate-key guard, conflict resolution,
schema validation, emission. The key is reserved in `seenAlpha4Codes`
before validation, and a conflicting common name is counted regardless of
whether validation then succeeds, exactly as in the source. -/
def transformStep (dateOk : String → Bool)
    (options : MappingTransformOptions) (st : TransformFoldState)
    (r : JoinedRecord) : TransformFoldState :=
  if st.seenAlpha4.contains r.alpha4Code then
    { st with
        errors := st.errors ++ [⟨.DUPLICATE_ALPHA4_CODE, "alpha4Code"⟩]
        duplicateAlpha4Codes := st.duplicateAlpha4Codes + 1 }
  else if !(validateMappingSchema dateOk
      (transformCandidate options r)).isEmpty then
    { st with
        seenAlpha4 := st.seenAlpha4 ++ [r.alpha4Code]
        errors := st.errors ++
          validateMappingSchema dateOk (transformCandidate options r)
        validationErrors := st.validationErrors + 1
        nameConflicts := st.nameConflicts +
          if r.commonNameEBird ≠ r.commonNameIBP then 1 else 0 }
  else
    { st with
        seenAlpha4 := st.seenAlpha4 ++ [r.alpha4Code]
        mappingRecords := st.mappingRecords ++ [transformCandidate options r]
        successfulTransformations := st.successfulTransformations + 1
        nameConflicts := st.nameConflicts +
          if r.commonNameEBird ≠ r.commonNameIBP then 1 else 0 }

/-- The final loop state of `transformToMappingRecords` over nonempty
input with valid metadata. -/
def transformFinal (dateOk : String → Bool)
    (joined : List JoinedRecord) (options : MappingTransformOptions) :
    TransformFoldState :=
  joined.foldl (transformStep dateOk options) ⟨[], [], [], 0, 0, 0, 0⟩

/-- `transformToMappingRecords`, parameterized by the `Date.parse` success
predicate: metadata validation aborts the whole batch, an empty input
short-circuits, otherwise the record loop runs. -/
def transformToMappingRecords (dateOk : String → Bool)
    (joined : List JoinedRecord) (options : MappingTransformOptions) :
    MappingTransformResult :=
  if !(transformOptionsErrors dateOk options).isEmpty then
    { success := false, mappingRecords := [],
      errors := transformOptionsErrors dateOk options,
      stats := ⟨joined.length, 0,
        (transformOptionsErrors dateOk options).length, 0, 0⟩,
      metadataSource := if options.source = "" then "unknown" else options.source,
      metadataVersion :=
        if options.sourceVersion = "" then "unknown" else options.sourceVersion,
      metadataRecordCount := 0 }
  else if joined.isEmpty then
    { success := true, mappingRecords := [], errors := [],
      stats := ⟨0, 0, 0, 0, 0⟩,
      metadataSource := options.source,
      metadataVersion := options.sourceVersion,
      metadataRecordCount := 0 }
  else
    { success := (transformFinal dateOk joined options).errors.isEmpty,
      mappingRecords := (transformFinal dateOk joined options).mappingRecords,
      errors := (transformFinal dateOk joined options).errors,
      stats := ⟨joined.length,
        (transformFinal dateOk joined options).successfulTransformations,
        (transformFinal dateOk joined options).validationErrors,
        (transformFinal dateOk joined options).nameConflicts,
        (transformFinal dateOk joined options).duplicateAlpha4Codes⟩,
      metadataSource := options.source,
      metadataVersion := options.sourceVersion,
      metadataRecordCount :=
        (transformFinal dateOk joined options).mappingRecords.length }

/-! # Theorems

## Whitespace-collapse laws (for the normalizer) -/

theorem splitOnP_ws_cons {c : Char} (l : List Char) (h : isWS c = true) :
    List.splitOnP isWS (c :: l) = [] :: List.splitOnP isWS l := by
  simp [List.splitOnP_cons, h]

theorem splitOnP_word_append (w l : List Char)
    (h : ∀ c ∈ w, isWS c = false) :
    List.splitOnP isWS (w ++ l) =
      (List.splitOnP isWS l).modifyHead (fun t => w ++ t) := by
  induction w with
  | nil =>
    simp only [List.nil_append]
    cases hs : List.splitOnP isWS l with
    | nil => exact absurd hs (List.splitOnP_ne_nil _ _)
    | cons h0 t => simp [List.modifyHead]
  | cons c w ih =>
    have hc : isWS c = false := h c (List.mem_cons_self c w)
    have hw : ∀ x ∈ w, isWS x = false :=
      fun x hx => h x (List.mem_cons_of_mem c hx)
    rw [List.cons_append, List.splitOnP_cons, if_neg (by simp [hc]), ih hw,
      List.modifyHead_modifyHead]
    congr 1

theorem splitOnP_pieces_ws_free (l : List Char) :
    ∀ w ∈ List.splitOnP isWS l, ∀ c ∈ w, isWS c = false := by
  induction l with
  | nil =>
    intro w hw c hc
    rw [List.splitOnP_nil] at hw
    simp only [List.mem_singleton] at hw
    subst hw
    simp at hc
  | cons a l ih =>
    intro w hw c hc
    rw [List.splitOnP_cons] at hw
    by_cases ha : isWS a = true
    · rw [if_pos ha] at hw
      rcases List.mem_cons.mp hw with rfl | hw
      · simp at hc
      · exact ih w hw c hc
    · rw [if_neg ha] at hw
      cases hs : List.splitOnP isWS l with
      | nil => exact absurd hs (List.splitOnP_ne_nil _ _)
      | cons h0 t =>
        rw [hs] at hw
        simp only [List.modifyHead] at hw
        rcases List.mem_cons.mp hw with rfl | hw
        · rcases List.mem_cons.mp hc with rfl | hc
          · simpa using ha
          · exact ih h0 (hs ▸ List.mem_cons_self h0 t) c hc
        · exact ih w (hs ▸ List.mem_cons_of_mem h0 hw) c hc

theorem wordsOf_pieces (l : List Char) :
    ∀ w ∈ wordsOf l, w ≠ [] ∧ ∀ c ∈ w, isWS c = false := by
  intro w hw
  unfold wordsOf at hw
  have hmem := List.mem_of_mem_filter hw
  have hne := List.of_mem_filter hw
  exact ⟨by simpa using hne, splitOnP_pieces_ws_free l w hmem⟩

theorem wordsOf_joinWords (ws : List (List Char))
    (h1 : ∀ w ∈ ws, w ≠ [])
    (h2 : ∀ w ∈ ws, ∀ c ∈ w, isWS c = false) :
    wordsOf (joinWords ws) = ws := by
  induction ws with
  | nil => simp [joinWords, wordsOf, List.splitOnP_nil]
  | cons w ws ih =>
    cases ws with
    | nil =>
      have hw1 : w ≠ [] := h1 w (List.mem_cons_self w [])
      have hw2 : ∀ c ∈ w, isWS c = false :=
        h2 w (List.mem_cons_self w [])
      unfold wordsOf
      rw [show joinWords [w] = w ++ [] by simp [joinWords]]
      rw [splitOnP_word_append w [] hw2, List.splitOnP_nil]
      simp [List.modifyHead, hw1]
    | cons w2 ws2 =>
      have hw1 : w ≠ [] := h1 w (List.mem_cons_self w _)
      have hw2 : ∀ c ∈ w, isWS c = false := h2 w (List.mem_cons_self w _)
      have ht1 : ∀ x ∈ w2 :: ws2, x ≠ [] :=
        fun x hx => h1 x (List.mem_cons_of_mem w hx)
      have ht2 : ∀ x ∈ w2 :: ws2, ∀ c ∈ x, isWS c = false :=
        fun x hx => h2 x (List.mem_cons_of_mem w hx)
      have hjoin : joinWords (w :: w2 :: ws2) =
          w ++ ' ' :: joinWords (w2 :: ws2) := by
        simp [joinWords]
      unfold wordsOf
      rw [hjoin, splitOnP_word_append w _ hw2,
        splitOnP_ws_cons _ (by simp [isWS])]
      simp only [List.modifyHead, List.append_nil]
      rw [List.filter_cons_of_pos (by simpa using hw1)]
      have := ih ht1 ht2
      unfold wordsOf at this
      rw [this]

theorem cleanName_idem (s : String) :
    cleanName (cleanName s) = cleanName s := by
  unfold cleanName
  apply congrArg String.mk
  apply congrArg joinWords
  exact wordsOf_joinWords (wordsOf s.data)
    (fun w hw => (wordsOf_pieces s.data w hw).1)
    (fun w hw => (wordsOf_pieces s.data w hw).2)

/-! ## Genus-adjustment table facts -/

theorem genusTargets_fixed :
    ∀ r ∈ GENUS_ADJUSTMENT_RULES_V1,
      cleanName r.toName = r.toName ∧
        genusAdjustmentMapGet r.toName = none ∧ r.toName ≠ "" := by
  decide

theorem genusAdjustmentMapGet_mem {s t : String}
    (h : genusAdjustmentMapGet s = some t) :
    ∃ r ∈ GENUS_ADJUSTMENT_RULES_V1, r.fromName = s ∧ r.toName = t := by
  unfold genusAdjustmentMapGet at h
  cases hf : GENUS_ADJUSTMENT_RULES_V1.reverse.find?
      (fun r => r.fromName = s) with
  | none => rw [hf] at h; simp at h
  | some r =>
    rw [hf] at h
    simp only [Option.map] at h
    refine ⟨r, List.mem_reverse.mp (List.mem_of_find?_eq_some hf), ?_,
      Option.some.inj h⟩
    have := List.find?_some hf
    simpa using this

/-- C5: the scientific-name normalizer is idempotent — for every input
string `n`, `normalize(normalize(n)) = normalize(n)` — and each call
applies at most one substitution from the genus-adjustment table: the
result is either the (whitespace-collapsed) input unchanged or the target
of exactly one table rule, never the result of walking the table again. -/
theorem c5_normalize_idempotent_single_substitution (s : String) :
    normalizeScientificName (normalizeScientificName s) =
      normalizeScientificName s ∧
    (applyGenusAdjustments (cleanName s) = cleanName s ∨
      ∃ r ∈ GENUS_ADJUSTMENT_RULES_V1,
        cleanName s = r.fromName ∧
          applyGenusAdjustments (cleanName s) = r.toName) := by
  constructor
  · show applyGenusAdjustments
      (cleanName (applyGenusAdjustments (cleanName s))) =
        applyGenusAdjustments (cleanName s)
    cases hm : genusAdjustmentMapGet (cleanName s) with
    | none =>
      rw [show applyGenusAdjustments (cleanName s) = cleanName s by
        unfold applyGenusAdjustments; rw [hm]]
      rw [cleanName_idem]
      unfold applyGenusAdjustments
      rw [hm]
    | some t =>
      by_cases ht : t = ""
      · rw [show applyGenusAdjustments (cleanName s) = cleanName s by
          unfold applyGenusAdjustments; rw [hm]; simp [ht]]
        rw [cleanName_idem]
        unfold applyGenusAdjustments
        rw [hm]
        simp [ht]
      · obtain ⟨r, hr, _, hto⟩ := genusAdjustmentMapGet_mem hm
        obtain ⟨hclean, hnone, _⟩ := genusTargets_fixed r hr
        rw [show applyGenusAdjustments (cleanName s) = t by
          unfold applyGenusAdjustments; rw [hm]; simp [ht]]
        rw [← hto, hclean]
        unfold applyGenusAdjustments
        rw [hnone]
  · cases hm : genusAdjustmentMapGet (cleanName s) with
    | none =>
      left
      unfold applyGenusAdjustments
      rw [hm]
    | some t =>
      by_cases ht : t = ""
      · left
        unfold applyGenusAdjustments
        rw [hm]
        simp [ht]
      · right
        obtain ⟨r, hr, hfrom, hto⟩ := genusAdjustmentMapGet_mem hm
        refine ⟨r, hr, hfrom.symm, ?_⟩
        unfold applyGenusAdjustments
        rw [hm, hto]
        simp [ht]

/-! ## Transformer: alpha4 uniqueness (C1) -/

theorem transformStep_invariant (dateOk : String → Bool)
    (options : MappingTransformOptions) (st : TransformFoldState)
    (r : JoinedRecord)
    (h1 : (st.mappingRecords.map (fun m => m.alpha4)).Nodup)
    (h2 : ∀ a ∈ st.mappingRecords.map (fun m => m.alpha4),
      a ∈ st.seenAlpha4) :
    ((transformStep dateOk options st r).mappingRecords.map
      (fun m => m.alpha4)).Nodup ∧
    (∀ a ∈ (transformStep dateOk options st r).mappingRecords.map
        (fun m => m.alpha4),
      a ∈ (transformStep dateOk options st r).seenAlpha4) := by
  by_cases hdup : st.seenAlpha4.contains r.alpha4Code = true
  · have hstep : transformStep dateOk options st r =
        { st with
            errors := st.errors ++ [⟨.DUPLICATE_ALPHA4_CODE, "alpha4Code"⟩]
            duplicateAlpha4Codes := st.duplicateAlpha4Codes + 1 } := by
      unfold transformStep
      rw [if_pos hdup]
    rw [hstep]
    exact ⟨h1, h2⟩
  · have hnotmem : r.alpha4Code ∉ st.seenAlpha4 := by
      simpa using hdup
    unfold transformStep
    rw [if_neg hdup]
    split
    · -- validation failed: records unchanged, seen extended
      refine ⟨by simpa using h1, ?_⟩
      intro a ha
      simp only [List.mem_append]
      exact Or.inl (h2 a (by simpa using ha))
    · -- record emitted
      constructor
      · simp only [List.map_append, List.map_cons, List.map_nil]
        rw [List.nodup_append]
        refine ⟨h1, List.nodup_singleton _, ?_⟩
        intro a ha hb
        simp only [List.mem_singleton] at hb
        subst hb
        exact hnotmem (h2 _ ha)
      · intro a ha
        simp only [List.map_append, List.map_cons, List.map_nil,
          List.mem_append, List.mem_singleton] at ha
        simp only [List.mem_append, List.mem_singleton]
        rcases ha with ha | ha
        · exact Or.inl (h2 a ha)
        · exact Or.inr ha

theorem transform_foldl_invariant (dateOk : String → Bool)
    (options : MappingTransformOptions) (joined : List JoinedRecord) :
    ∀ st : TransformFoldState,
      (st.mappingRecords.map (fun m => m.alpha4)).Nodup →
      (∀ a ∈ st.mappingRecords.map (fun m => m.alpha4), a ∈ st.seenAlpha4) →
      ((joined.foldl (transformStep dateOk options) st).mappingRecords.map
        (fun m => m.alpha4)).Nodup ∧
      (∀ a ∈ (joined.foldl (transformStep dateOk options)
          st).mappingRecords.map (fun m => m.alpha4),
        a ∈ (joined.foldl (transformStep dateOk options) st).seenAlpha4) := by
  induction joined with
  | nil => intro st h1 h2; exact ⟨h1, h2⟩
  | cons r joined ih =>
    intro st h1 h2
    rw [List.foldl_cons]
    obtain ⟨g1, g2⟩ := transformStep_invariant dateOk options st r h1 h2
    exact ih _ g1 g2

/-- C1 (amended): every mapping set emitted by `transformToMappingRecords`
has pairwise-distinct `alpha4` values (the duplicate-key guard reserves
each alpha4 before any record carrying it can be emitted). The `ebird6`
side of the original claim fails: see the counterexample. -/
theorem c1_transform_alpha4_pairwise_distinct (dateOk : String → Bool)
    (joined : List JoinedRecord) (options : MappingTransformOptions) :
    ((transformToMappingRecords dateOk joined options).mappingRecords.map
      (fun m => m.alpha4)).Nodup := by
  unfold transformToMappingRecords
  split
  · simp
  · split
    · simp
    · exact (transform_foldl_invariant dateOk options joined
        ⟨[], [], [], 0, 0, 0, 0⟩ (by simp) (by simp)).1

/-- C1 counterexample: two joined records with distinct alpha4 codes but
the same ebird6 code are both emitted, so the emitted `ebird6` values are
not pairwise distinct — `transformToMappingRecords` deduplicates only on
`alpha4`. -/
theorem c1_counterexample_ebird6_repeats :
    ¬ ((transformToMappingRecords (fun _ => true)
        [⟨"AMCR", "amecro", "Corvus brachyrhynchos", "American Crow",
          "American Crow"⟩,
         ⟨"MALL", "amecro", "Anas platyrhynchos", "Mallard", "Mallard"⟩]
        ⟨"XLSX IBP-AOS-LIST24", "2024.09", "2024-09-08T00:00:00.000Z",
          none⟩).mappingRecords.map (fun m => m.ebird6)).Nodup := by
  decide

/-! ## Parser row accounting (C7, C8, C9, C2) -/

theorem eBirdRowStep_sum (fso : Bool) (st : EBirdFoldState) (r : Row) :
    (eBirdRowStep fso st r).validRecords +
      (eBirdRowStep fso st r).skippedRecords +
      (eBirdRowStep fso st r).errorRecords =
    st.validRecords + st.skippedRecords + st.errorRecords + 1 := by
  unfold eBirdRowStep
  dsimp only
  split_ifs <;> simp <;> omega

theorem ibpRowStep_sum (exc : Bool) (st : IBPFoldState) (r : Row) :
    (ibpRowStep exc st r).validRecords +
      (ibpRowStep exc st r).skippedRecords +
      (ibpRowStep exc st r).errorRecords =
    st.validRecords + st.skippedRecords + st.errorRecords + 1 := by
  unfold ibpRowStep
  dsimp only
  split_ifs <;> simp <;> omega

theorem eBird_foldl_sum (fso : Bool) (rows : List Row) :
    ∀ st : EBirdFoldState,
      (rows.foldl (eBirdRowStep fso) st).validRecords +
        (rows.foldl (eBirdRowStep fso) st).skippedRecords +
        (rows.foldl (eBirdRowStep fso) st).errorRecords =
      st.validRecords + st.skippedRecords + st.errorRecords + rows.length := by
  induction rows with
  | nil => intro st; simp
  | cons r rows ih =>
    intro st
    rw [List.foldl_cons, ih (eBirdRowStep fso st r)]
    have := eBirdRowStep_sum fso st r
    simp only [List.length_cons]
    omega

theorem ibp_foldl_sum (exc : Bool) (rows : List Row) :
    ∀ st : IBPFoldState,
      (rows.foldl (ibpRowStep exc) st).validRecords +
        (rows.foldl (ibpRowStep exc) st).skippedRecords +
        (rows.foldl (ibpRowStep exc) st).errorRecords =
      st.validRecords + st.skippedRecords + st.errorRecords + rows.length := by
  induction rows with
  | nil => intro st; simp
  | cons r rows ih =>
    intro st
    rw [List.foldl_cons, ih (ibpRowStep exc st r)]
    have := ibpRowStep_sum exc st r
    simp only [List.length_cons]
    omega

/-- C8 (amended): for every result of both parsers, `success` is true iff
the error list is empty (skipped rows never affect it); the accounting
invariant `validRecords + skippedRecords + errorRecords = totalRows` holds
for every `parseIBPCSV` result and for every `parseEBirdCSV` result except
the missing-column structural abort, where the three counters are zero
while `totalRows` is the data-row count (see the counterexample). -/
theorem c8_parse_stats_invariants (rows : List Row) (fso exc : Bool) :
    ((parseIBPCSV rows exc).stats.validRecords +
        (parseIBPCSV rows exc).stats.skippedRecords +
        (parseIBPCSV rows exc).stats.errorRecords =
      (parseIBPCSV rows exc).stats.totalRows) ∧
    ((parseIBPCSV rows exc).success = true ↔
      (parseIBPCSV rows exc).errors = []) ∧
    ((parseEBirdCSV rows fso).success = true ↔
      (parseEBirdCSV rows fso).errors = []) ∧
    ((rows = [] ∨ eBirdMissingColumns rows = []) →
      (parseEBirdCSV rows fso).stats.validRecords +
          (parseEBirdCSV rows fso).stats.skippedRecords +
          (parseEBirdCSV rows fso).stats.errorRecords =
        (parseEBirdCSV rows fso).stats.totalRows) := by
  refine ⟨?_, ?_, ?_, ?_⟩
  · unfold parseIBPCSV
    split
    · simp
    · have := ibp_foldl_sum exc rows ⟨0, [], [], 0, 0, 0⟩
      simpa using this
  · unfold parseIBPCSV
    split
    · simp
    · simp [List.isEmpty_iff]
  · unfold parseEBirdCSV
    split
    · simp
    · split
      · simp
      · simp [List.isEmpty_iff]
  · intro hmain
    unfold parseEBirdCSV
    split
    · simp
    · split
      · rename_i hne hmiss
        exfalso
        rcases hmain with h | h
        · exact hne (by simp [h])
        · simp [h] at hmiss
      · have := eBird_foldl_sum fso rows ⟨0, [], [], 0, 0, 0⟩
        simpa using this

/-- C8 counterexample: on an eBird input whose header misses required
columns but which has one data row, the structural abort reports
`totalRows = 1` with all three per-row counters zero, so the sum invariant
of the claim fails for this parse result. -/
theorem c8_counterexample_missing_columns_stats :
    (parseEBirdCSV [[("TAXON_ORDER", "1")]] false).stats.validRecords +
        (parseEBirdCSV [[("TAXON_ORDER", "1")]] false).stats.skippedRecords +
        (parseEBirdCSV [[("TAXON_ORDER", "1")]] false).stats.errorRecords ≠
      (parseEBirdCSV [[("TAXON_ORDER", "1")]] false).stats.totalRows := by
  decide

/-- C8 witness: the sum invariant instantiated at a concrete one-row valid
eBird input, with the missing-column hypothesis discharged. -/
theorem c8_parse_stats_invariants_witness :
    (parseEBirdCSV
        [[("TAXON_ORDER", "2"), ("CATEGORY", "species"),
          ("SPECIES_CODE", "amecro"), ("TAXON_CONCEPT_ID", ""),
          ("PRIMARY_COM_NAME", "American Crow"),
          ("SCI_NAME", "Corvus brachyrhynchos"), ("ORDER", "Passeriformes"),
          ("FAMILY", "Corvidae"), ("SPECIES_GROUP", "Corvids"),
          ("REPORT_AS", "")]] false).stats.validRecords +
        (parseEBirdCSV
        [[("TAXON_ORDER", "2"), ("CATEGORY", "species"),
          ("SPECIES_CODE", "amecro"), ("TAXON_CONCEPT_ID", ""),
          ("PRIMARY_COM_NAME", "American Crow"),
          ("SCI_NAME", "Corvus brachyrhynchos"), ("ORDER", "Passeriformes"),
          ("FAMILY", "Corvidae"), ("SPECIES_GROUP", "Corvids"),
          ("REPORT_AS", "")]] false).stats.skippedRecords +
        (parseEBirdCSV
        [[("TAXON_ORDER", "2"), ("CATEGORY", "species"),
          ("SPECIES_CODE", "amecro"), ("TAXON_CONCEPT_ID", ""),
          ("PRIMARY_COM_NAME", "American Crow"),
          ("SCI_NAME", "Corvus brachyrhynchos"), ("ORDER", "Passeriformes"),
          ("FAMILY", "Corvidae"), ("SPECIES_GROUP", "Corvids"),
          ("REPORT_AS", "")]] false).stats.errorRecords =
      (parseEBirdCSV
        [[("TAXON_ORDER", "2"), ("CATEGORY", "species"),
          ("SPECIES_CODE", "amecro"), ("TAXON_CONCEPT_ID", ""),
          ("PRIMARY_COM_NAME", "American Crow"),
          ("SCI_NAME", "Corvus brachyrhynchos"), ("ORDER", "Passeriformes"),
          ("FAMILY", "Corvidae"), ("SPECIES_GROUP", "Corvids"),
          ("REPORT_AS", "")]] false).stats.totalRows :=
  (c8_parse_stats_invariants _ false false).2.2.2 (Or.inr (by decide))

/-- C7 (amended): `parseEBirdCSV` aborts on a missing required column with
exactly one structural `MISSING_COLUMNS` error and zero records; no
per-row processing happens. (`parseIBPCSV` performs no such header check:
see the counterexample.) -/
theorem c7_ebird_missing_columns_abort (rows : List Row) (fso : Bool)
    (hne : rows ≠ []) (hmiss : eBirdMissingColumns rows ≠ []) :
    (parseEBirdCSV rows fso).errors =
      [⟨CSVErrorType.MISSING_COLUMNS, 0, ""⟩] ∧
    (parseEBirdCSV rows fso).records = [] ∧
    (parseEBirdCSV rows fso).success = false := by
  unfold parseEBirdCSV
  rw [if_neg (by simp [List.isEmpty_iff, hne]),
    if_pos (by simp [List.isEmpty_iff, hmiss])]
  exact ⟨rfl, rfl, rfl⟩

/-- C7 witness: the missing-column abort at a concrete one-row input. -/
theorem c7_ebird_missing_columns_abort_witness :
    (parseEBirdCSV [[("TAXON_ORDER", "1")]] false).errors =
      [⟨CSVErrorType.MISSING_COLUMNS, 0, ""⟩] ∧
    (parseEBirdCSV [[("TAXON_ORDER", "1")]] false).records = [] ∧
    (parseEBirdCSV [[("TAXON_ORDER", "1")]] false).success = false :=
  c7_ebird_missing_columns_abort [[("TAXON_ORDER", "1")]] false
    (by decide) (by decide)

/-- C7 counterexample: `parseIBPCSV` has no header check — on an input
whose rows all miss the required `SPEC` column it produces one
`EMPTY_REQUIRED_FIELD` row error per row (two here), not a single
structural abort. -/
theorem c7_counterexample_ibp_no_header_check :
    ((parseIBPCSV
        [[("COMMONNAME", "A"), ("SCINAME", "Corvus brachyrhynchos")],
         [("COMMONNAME", "B"), ("SCINAME", "Anas platyrhynchos")]]
        false).errors.map (fun e => e.etype) =
      [CSVErrorType.EMPTY_REQUIRED_FIELD,
        CSVErrorType.EMPTY_REQUIRED_FIELD]) ∧
    (parseIBPCSV
        [[("COMMONNAME", "A"), ("SCINAME", "Corvus brachyrhynchos")],
         [("COMMONNAME", "B"), ("SCINAME", "Anas platyrhynchos")]]
        false).errors.length ≠ 1 := by
  decide

/-- C9 (amended): in `parseEBirdCSV`, scientific-name validation runs
before code-format validation, so a row with both an invalid name (and no
hybrid/slash/`sp.` marker) and an invalid code reports
`INVALID_SCIENTIFIC_NAME`; in `parseIBPCSV` the order is reversed — the
alpha4-code check runs before name validation, so such a row reports
`INVALID_ALPHA4_CODE`, not the name error. -/
theorem c9_code_check_after_name_only_in_ebird :
    (∀ r : Row, eBirdMissingColumns [r] = [] →
      rowGetTrim r "SPECIES_CODE" ≠ "" →
      rowGetTrim r "SCI_NAME" ≠ "" →
      isValidScientificName
        (normalizeScientificName (rowGetTrim r "SCI_NAME")) = false →
      jsIncludes (rowGetTrim r "SCI_NAME") " x " = false →
      jsIncludes (rowGetTrim r "SCI_NAME") "/" = false →
      jsIncludes (rowGetTrim r "SCI_NAME") " sp." = false →
      isValidEBirdCode (rowGetTrim r "SPECIES_CODE") = false →
      (parseEBirdCSV [r] false).errors.map (fun e => e.etype) =
        [CSVErrorType.INVALID_SCIENTIFIC_NAME]) ∧
    (∀ r : Row,
      rowGetTrim r "SPEC" ≠ "" →
      rowGetTrim r "SCINAME" ≠ "" →
      isValidAlpha4Code (rowGetTrim r "SPEC") = false →
      isValidScientificName
        (normalizeScientificName (rowGetTrim r "SCINAME")) = false →
      (parseIBPCSV [r] false).errors.map (fun e => e.etype) =
        [CSVErrorType.INVALID_ALPHA4_CODE]) := by
  constructor
  · intro r hmiss h1 h2 h3 h4 h5 h6 h7
    unfold parseEBirdCSV
    rw [if_neg (by simp), if_neg (by simp [hmiss])]
    simp only [List.foldl_cons, List.foldl_nil]
    unfold eBirdRowStep
    dsimp only
    rw [if_neg (by simp [h1, h2]), if_neg (by simp),
      if_pos (by simp [h3, h4, h5, h6])]
    simp
  · intro r h1 h2 h3 h4
    unfold parseIBPCSV
    rw [if_neg (by simp)]
    simp only [List.foldl_cons, List.foldl_nil]
    unfold ibpRowStep
    dsimp only
    rw [if_neg (by simp [h1, h2]), if_neg (by simp),
      if_pos (by simp [h3])]
    simp

/-- C9 witness: both orderings instantiated at concrete rows with an
invalid name and an invalid code. -/
theorem c9_code_check_after_name_only_in_ebird_witness :
    ((parseEBirdCSV
        [[("TAXON_ORDER", "2"), ("CATEGORY", "species"),
          ("SPECIES_CODE", "AME"), ("TAXON_CONCEPT_ID", ""),
          ("PRIMARY_COM_NAME", "American Crow"),
          ("SCI_NAME", "corvus brachyrhynchos"), ("ORDER", "Passeriformes"),
          ("FAMILY", "Corvidae"), ("SPECIES_GROUP", "Corvids"),
          ("REPORT_AS", "")]] false).errors.map (fun e => e.etype) =
      [CSVErrorType.INVALID_SCIENTIFIC_NAME]) ∧
    ((parseIBPCSV
        [[("SP", ""), ("SPEC", "AM1R"), ("COMMONNAME", "Invalid"),
          ("SCINAME", "corvus brachyrhynchos"), ("SPEC6", "CORAME")]]
        false).errors.map (fun e => e.etype) =
      [CSVErrorType.INVALID_ALPHA4_CODE]) := by
  constructor
  · exact c9_code_check_after_name_only_in_ebird.1 _ (by decide) (by decide)
      (by decide) (by decide) (by decide) (by decide) (by decide) (by decide)
  · exact c9_code_check_after_name_only_in_ebird.2 _ (by decide) (by decide)
      (by decide) (by decide)

/-- C9 counterexample: an IBP row whose alpha4 code and scientific name are
both invalid is reported as `INVALID_ALPHA4_CODE` — the code error, not
the name error the claim predicts. -/
theorem c9_counterexample_ibp_code_error_first :
    ((parseIBPCSV
        [[("SP", ""), ("SPEC", "AM1R"), ("COMMONNAME", "Invalid"),
          ("SCINAME", "corvus brachyrhynchos"), ("SPEC6", "CORAME")]]
        false).errors.map (fun e => e.etype) =
      [CSVErrorType.INVALID_ALPHA4_CODE]) ∧
    isValidScientificName
      (normalizeScientificName "corvus brachyrhynchos") = false ∧
    isValidAlpha4Code "AM1R" = false := by
  decide

/-- C2: the hybrid checklist row taken from the repository's own
`csv-parser` test (scientific name with the ` x ` marker, failing the
strict binomial shape) is NOT parsed into a valid record: the marker check
exempts it from `INVALID_SCIENTIFIC_NAME`, but `createScientificName`
then throws inside the `try` block (the validator accepts only strict
binomials), so the row becomes a `MALFORMED_ROW` error and the parse
fails — the code contradicts its own test, which expects `success` and a
third (hybrid) record. -/
theorem c2_hybrid_row_is_error :
    ((parseEBirdCSV
        [[("TAXON_ORDER", "4"), ("CATEGORY", "hybrid"),
          ("SPECIES_CODE", "croxfi"), ("TAXON_CONCEPT_ID", ""),
          ("PRIMARY_COM_NAME", "American Crow x Fish Crow (hybrid)"),
          ("SCI_NAME", "Corvus brachyrhynchos x ossifragus"),
          ("ORDER", "Passeriformes"), ("FAMILY", "Corvidae (Crows and Jays)"),
          ("SPECIES_GROUP", "Corvids"), ("REPORT_AS", "")]]
        false).records = []) ∧
    ((parseEBirdCSV
        [[("TAXON_ORDER", "4"), ("CATEGORY", "hybrid"),
          ("SPECIES_CODE", "croxfi"), ("TAXON_CONCEPT_ID", ""),
          ("PRIMARY_COM_NAME", "American Crow x Fish Crow (hybrid)"),
          ("SCI_NAME", "Corvus brachyrhynchos x ossifragus"),
          ("ORDER", "Passeriformes"), ("FAMILY", "Corvidae (Crows and Jays)"),
          ("SPECIES_GROUP", "Corvids"), ("REPORT_AS", "")]]
        false).errors.map (fun e => e.etype) = [CSVErrorType.MALFORMED_ROW]) ∧
    ((parseEBirdCSV
        [[("TAXON_ORDER", "4"), ("CATEGORY", "hybrid"),
          ("SPECIES_CODE", "croxfi"), ("TAXON_CONCEPT_ID", ""),
          ("PRIMARY_COM_NAME", "American Crow x Fish Crow (hybrid)"),
          ("SCI_NAME", "Corvus brachyrhynchos x ossifragus"),
          ("ORDER", "Passeriformes"), ("FAMILY", "Corvidae (Crows and Jays)"),
          ("SPECIES_GROUP", "Corvids"), ("REPORT_AS", "")]]
        false).success = false) ∧
    jsIncludes "Corvus brachyrhynchos x ossifragus" " x " = true ∧
    isValidScientificName "Corvus brachyrhynchos x ossifragus" = false := by
  decide


/-! ## Variant-aware join: stability and consumption (C3, C4, C10) -/

theorem rankLe_trans : ∀ a b c : EBirdRawRecord,
    rankLe a b → rankLe b c → rankLe a c := by
  intro a b c
  simp only [rankLe, decide_eq_true_eq]
  omega

theorem rankLe_total : ∀ a b : EBirdRawRecord, rankLe a b || rankLe b a := by
  intro a b
  simp only [rankLe]
  by_cases h : rankOf a ≤ rankOf b
  · simp [h]
  · simp [Nat.le_of_not_le h]

theorem rankOf_cases (r : EBirdRawRecord) :
    rankOf r = 0 ∨ rankOf r = 1 ∨ rankOf r = 2 := by
  unfold rankOf
  split_ifs <;> simp

theorem append_eq_append_of_pred {α : Type} (q : α → Bool) :
    ∀ (u v u' v' : List α), u ++ v = u' ++ v' →
      (∀ x ∈ u, q x = true) → (∀ x ∈ v, q x = false) →
      (∀ x ∈ u', q x = true) → (∀ x ∈ v', q x = false) →
      u = u' ∧ v = v' := by
  intro u
  induction u with
  | nil =>
    intro v u' v' h hu hv hu' hv'
    cases u' with
    | nil => simpa using h
    | cons b u' =>
      exfalso
      simp only [List.nil_append, List.cons_append] at h
      have h1 := hv b (by rw [h]; exact List.mem_cons_self b _)
      have h2 := hu' b (List.mem_cons_self b _)
      rw [h1] at h2
      exact Bool.false_ne_true h2
  | cons a u ih =>
    intro v u' v' h hu hv hu' hv'
    cases u' with
    | nil =>
      exfalso
      simp only [List.cons_append, List.nil_append] at h
      have h1 := hv' a (by rw [← h]; exact List.mem_cons_self a _)
      have h2 := hu a (List.mem_cons_self a _)
      rw [h1] at h2
      exact Bool.false_ne_true h2
    | cons b u' =>
      simp only [List.cons_append, List.cons.injEq] at h
      obtain ⟨rfl, h⟩ := h
      obtain ⟨h1, h2⟩ := ih v u' v' h
        (fun x hx => hu x (List.mem_cons_of_mem _ hx)) hv
        (fun x hx => hu' x (List.mem_cons_of_mem _ hx)) hv'
      exact ⟨by rw [h1], h2⟩

theorem mergeSort_rankLe_eq (l : List EBirdRawRecord) :
    l.mergeSort rankLe = rankBuckets l := by
  induction l with
  | nil => simp [rankBuckets]
  | cons a l ih =>
    obtain ⟨l₁, l₂, h1, h2, h3⟩ :=
      List.mergeSort_cons rankLe_trans rankLe_total a l
    have hsorted :=
      @List.sorted_mergeSort EBirdRawRecord rankLe rankLe_trans rankLe_total
        (a :: l)
    rw [h1] at hsorted
    have hl2 : ∀ c ∈ l₂, rankOf a ≤ rankOf c := by
      intro c hc
      have hp := (List.pairwise_append.mp hsorted).2.1
      have := (List.pairwise_cons.mp hp).1 c hc
      simpa [rankLe] using this
    have hl1 : ∀ b ∈ l₁, rankOf b < rankOf a := by
      intro b hb
      have := h3 b hb
      simp only [rankLe, Bool.not_eq_true', decide_eq_false_iff_not] at this
      omega
    have hflat : l₁ ++ l₂ = rankBuckets l := by rw [← h2, ih]
    have hq1 : ∀ x ∈ l₁, decide (rankOf x < rankOf a) = true := by
      intro x hx; simpa using hl1 x hx
    have hq2 : ∀ x ∈ l₂, decide (rankOf x < rankOf a) = false := by
      intro x hx
      simp only [decide_eq_false_iff_not, Nat.not_lt]
      exact hl2 x hx
    have hmem0 : ∀ x ∈ l.filter (fun r => rankOf r == 0), rankOf x = 0 := by
      intro x hx; simpa using List.of_mem_filter hx
    have hmem1 : ∀ x ∈ l.filter (fun r => rankOf r == 1), rankOf x = 1 := by
      intro x hx; simpa using List.of_mem_filter hx
    have hmem2 : ∀ x ∈ l.filter (fun r => rankOf r == 2), rankOf x = 2 := by
      intro x hx; simpa using List.of_mem_filter hx
    rcases rankOf_cases a with hra | hra | hra
    · -- rank a = 0: nothing sorts before a
      have hl1nil : l₁ = [] := by
        rcases l₁ with _ | ⟨b, l₁⟩
        · rfl
        · exact absurd (hl1 b (List.mem_cons_self b l₁)) (by omega)
      subst hl1nil
      simp only [List.nil_append] at h2 hflat
      rw [h1, hflat]
      simp [rankBuckets, List.filter_cons, hra]
    · -- rank a = 1: exactly the rank-0 bucket sorts before a
      have hflat2 : l₁ ++ l₂ =
          l.filter (fun r => rankOf r == 0) ++
            (l.filter (fun r => rankOf r == 1) ++
              l.filter (fun r => rankOf r == 2)) := by
        rw [hflat]
        simp [rankBuckets, List.append_assoc]
      obtain ⟨e1, e2⟩ := append_eq_append_of_pred
        (fun x => decide (rankOf x < rankOf a)) l₁ l₂ _ _ hflat2 hq1 hq2
        (by intro x hx; have := hmem0 x hx; simp; omega)
        (by intro x hx
            rcases List.mem_append.mp hx with hx | hx
            · have := hmem1 x hx
              simp only [decide_eq_false_iff_not, Nat.not_lt]
              omega
            · have := hmem2 x hx
              simp only [decide_eq_false_iff_not, Nat.not_lt]
              omega)
      rw [h1, e1, e2]
      simp [rankBuckets, List.filter_cons, hra, List.append_assoc]
    · -- rank a = 2: the rank-0 and rank-1 buckets sort before a
      have hflat2 : l₁ ++ l₂ =
          (l.filter (fun r => rankOf r == 0) ++
            l.filter (fun r => rankOf r == 1)) ++
            l.filter (fun r => rankOf r == 2) := by
        rw [hflat]
        simp [rankBuckets, List.append_assoc]
      obtain ⟨e1, e2⟩ := append_eq_append_of_pred
        (fun x => decide (rankOf x < rankOf a)) l₁ l₂ _ _ hflat2 hq1 hq2
        (by intro x hx
            rcases List.mem_append.mp hx with hx | hx
            · have := hmem0 x hx; simp; omega
            · have := hmem1 x hx; simp; omega)
        (by intro x hx
            have := hmem2 x hx
            simp only [decide_eq_false_iff_not, Nat.not_lt]
            omega)
      rw [h1, e1, e2]
      simp [rankBuckets, List.filter_cons, hra, List.append_assoc]

theorem varChosen_some {ibp : List IBPRawRecord} {C : List Nat}
    {e : EBirdRawRecord} {p : Nat × IBPRawRecord}
    (h : varChosen ibp C e = some p) :
    C.contains p.1 = false ∧ p ∈ ibp.enum := by
  unfold varChosen at h
  cases hf : (ibpFullBucket ibp e.scientificName).find?
      (fun q => !C.contains q.1) with
  | some q =>
    rw [hf] at h
    obtain rfl : q = p := Option.some.inj h
    constructor
    · have := List.find?_some hf
      simpa using this
    · exact List.mem_of_mem_filter (List.mem_of_find?_eq_some hf)
  | none =>
    rw [hf] at h
    constructor
    · have := List.find?_some h
      simpa using this
    · exact List.mem_of_mem_filter (List.mem_of_find?_eq_some h)

theorem mem_enum_fst_lt {l : List IBPRawRecord} {p : Nat × IBPRawRecord}
    (h : p ∈ l.enum) : p.1 < l.length := by
  rw [List.mem_enum_iff_getElem?] at h
  exact (List.getElem?_eq_some.mp h).1

theorem varStep_cases (ibp : List IBPRawRecord) (opts : JoinOptions)
    (st : VarJoinState) (e : EBirdRawRecord) :
    (policyAllows opts.variantPolicy e.category = false ∧
      varStep ibp opts st e = st) ∨
    (policyAllows opts.variantPolicy e.category = true ∧
      ∃ p, varChosen ibp st.consumed e = some p ∧
        varStep ibp opts st e =
          { st with
              consumed := st.consumed ++ [p.1]
              matched := st.matched ++
                [⟨p.2.alpha4Code, e.speciesCode, e.scientificName,
                  e.commonName, p.2.commonName⟩] }) ∨
    (policyAllows opts.variantPolicy e.category = true ∧
      varChosen ibp st.consumed e = none ∧
      varStep ibp opts st e =
        { st with unmatchedEBird := st.unmatchedEBird ++ [e] }) := by
  by_cases hp : policyAllows opts.variantPolicy e.category = true
  · cases hch : varChosen ibp st.consumed e with
    | some p =>
      refine Or.inr (Or.inl ⟨hp, p, rfl, ?_⟩)
      unfold varStep
      rw [if_neg (by simp [hp]), hch]
    | none =>
      refine Or.inr (Or.inr ⟨hp, rfl, ?_⟩)
      unfold varStep
      rw [if_neg (by simp [hp]), hch]
  · refine Or.inl ⟨by simpa using hp, ?_⟩
    unfold varStep
    rw [if_pos (by simpa using hp)]

theorem varFold_consumed_invariant (ibp : List IBPRawRecord)
    (opts : JoinOptions) (es : List EBirdRawRecord) :
    ∀ st : VarJoinState,
      st.consumed.Nodup →
      (∀ i ∈ st.consumed, i < ibp.length) →
      st.matched.length = st.consumed.length →
      ((es.foldl (varStep ibp opts) st).consumed.Nodup ∧
        (∀ i ∈ (es.foldl (varStep ibp opts) st).consumed, i < ibp.length) ∧
        (es.foldl (varStep ibp opts) st).matched.length =
          (es.foldl (varStep ibp opts) st).consumed.length) := by
  induction es with
  | nil => intro st h1 h2 h3; exact ⟨h1, h2, h3⟩
  | cons e es ih =>
    intro st h1 h2 h3
    rw [List.foldl_cons]
    rcases varStep_cases ibp opts st e with ⟨_, heq⟩ | ⟨_, p, hch, heq⟩ |
      ⟨_, _, heq⟩
    · rw [heq]; exact ih st h1 h2 h3
    · rw [heq]
      obtain ⟨hc, hmem⟩ := varChosen_some hch
      refine ih _ ?_ ?_ ?_
      · rw [List.nodup_append]
        refine ⟨h1, List.nodup_singleton _, ?_⟩
        intro i hi hj
        simp only [List.mem_singleton] at hj
        subst hj
        simp [hi] at hc
      · intro i hi
        rcases List.mem_append.mp hi with hi | hi
        · exact h2 i hi
        · simp only [List.mem_singleton] at hi
          subst hi
          exact mem_enum_fst_lt hmem
      · simp [h3]
    · rw [heq]
      exact ih _ h1 h2 h3

theorem varFold_output_invariant (ibp : List IBPRawRecord)
    (opts : JoinOptions) (es : List EBirdRawRecord) :
    ∀ st : VarJoinState,
      ((es.foldl (varStep ibp opts) st).matched.length +
          (es.foldl (varStep ibp opts) st).unmatchedEBird.length =
        st.matched.length + st.unmatchedEBird.length +
          (es.filter
            (fun e => policyAllows opts.variantPolicy e.category)).length) ∧
      (∀ x ∈ (es.foldl (varStep ibp opts) st).unmatchedEBird,
        x ∈ st.unmatchedEBird ∨
          (policyAllows opts.variantPolicy x.category = true ∧ x ∈ es)) ∧
      (∀ m ∈ (es.foldl (varStep ibp opts) st).matched,
        m ∈ st.matched ∨
          ∃ e ∈ es, policyAllows opts.variantPolicy e.category = true ∧
            m.ebird6Code = e.speciesCode ∧
            m.scientificName = e.scientificName ∧
            m.commonNameEBird = e.commonName) := by
  induction es with
  | nil =>
    intro st
    refine ⟨by simp, fun x hx => Or.inl hx, fun m hm => Or.inl hm⟩
  | cons e es ih =>
    intro st
    rw [List.foldl_cons]
    rcases varStep_cases ibp opts st e with ⟨hp, heq⟩ | ⟨hp, p, _, heq⟩ |
      ⟨hp, _, heq⟩
    · rw [heq]
      refine ⟨?_, ?_, ?_⟩
      · rw [(ih st).1, List.filter_cons_of_neg (by simp [hp])]
      · intro x hx
        rcases (ih st).2.1 x hx with hx | ⟨hx1, hx2⟩
        · exact Or.inl hx
        · exact Or.inr ⟨hx1, List.mem_cons_of_mem e hx2⟩
      · intro m hm
        rcases (ih st).2.2 m hm with hm | ⟨e2, he2, hrest⟩
        · exact Or.inl hm
        · exact Or.inr ⟨e2, List.mem_cons_of_mem e he2, hrest⟩
    · rw [heq]
      refine ⟨?_, ?_, ?_⟩
      · rw [(ih _).1, List.filter_cons_of_pos (by simp [hp])]
        simp only [List.length_append, List.length_cons, List.length_nil]
        omega
      · intro x hx
        rcases (ih _).2.1 x hx with hx | ⟨hx1, hx2⟩
        · exact Or.inl hx
        · exact Or.inr ⟨hx1, List.mem_cons_of_mem e hx2⟩
      · intro m hm
        rcases (ih _).2.2 m hm with hm | ⟨e2, he2, hrest⟩
        · rcases List.mem_append.mp hm with hm | hm
          · exact Or.inl hm
          · simp only [List.mem_singleton] at hm
            subst hm
            exact Or.inr ⟨e, List.mem_cons_self e es, hp, rfl, rfl, rfl⟩
        · exact Or.inr ⟨e2, List.mem_cons_of_mem e he2, hrest⟩
    · rw [heq]
      refine ⟨?_, ?_, ?_⟩
      · rw [(ih _).1, List.filter_cons_of_pos (by simp [hp])]
        simp only [List.length_append, List.length_cons, List.length_nil]
        omega
      · intro x hx
        rcases (ih _).2.1 x hx with hx | ⟨hx1, hx2⟩
        · rcases List.mem_append.mp hx with hx | hx
          · exact Or.inl hx
          · simp only [List.mem_singleton] at hx
            subst hx
            exact Or.inr ⟨hp, List.mem_cons_self x es⟩
        · exact Or.inr ⟨hx1, List.mem_cons_of_mem e hx2⟩
      · intro m hm
        rcases (ih _).2.2 m hm with hm | ⟨e2, he2, hrest⟩
        · exact Or.inl hm
        · exact Or.inr ⟨e2, List.mem_cons_of_mem e he2, hrest⟩

theorem length_unconsumed (ibp : List IBPRawRecord) (C : List Nat)
    (hnd : C.Nodup) (hlt : ∀ i ∈ C, i < ibp.length) :
    ((ibp.enum.filter (fun p => !C.contains p.1)).map
      (fun p => p.2)).length = ibp.length - C.length ∧
    C.length ≤ ibp.length := by
  have h3 : List.countP (fun i => C.contains i) (List.range ibp.length) =
      C.length := by
    rw [List.countP_eq_length_filter]
    have hperm : List.Perm
        ((List.range ibp.length).filter (fun i => C.contains i)) C := by
      rw [List.perm_ext_iff_of_nodup
        (List.Nodup.filter _ (List.nodup_range _)) hnd]
      intro i
      simp only [List.mem_filter, List.mem_range]
      constructor
      · intro h
        simpa using h.2
      · intro h
        exact ⟨hlt i h, by simpa using h⟩
    exact hperm.length_eq
  have h2 := (List.filter_append_perm
    (fun i => C.contains i) (List.range ibp.length)).length_eq
  rw [List.length_append, List.length_range] at h2
  constructor
  · rw [List.length_map, ← List.countP_eq_length_filter]
    have h1 : List.countP (fun p => !C.contains p.1) ibp.enum =
        List.countP (fun i => !C.contains i) (List.range ibp.length) := by
      rw [← List.enum_map_fst ibp, List.countP_map]
      rfl
    rw [h1]
    rw [List.countP_eq_length_filter] at h3 ⊢
    omega
  · rw [List.countP_eq_length_filter] at h3
    omega


/-- C3: in `joinByScientificNameVariants`, an exact full-name match against
not-yet-consumed banding records is attempted before the truncated-binomial
fallback (fourth conjunct: the exact candidate wins although the binomial
bucket lists another unconsumed record first), the fallback fires when no
exact match exists (third conjunct: the spec's `Larus glaucoides kumlieni`
/ `ICGU` scenario), each banding record is consumed at most once — so
matches and unmatched banding records partition the banding side:
`successfulMatches + unmatchedIBPRecords = totalIBPRecords` (second
conjunct) — and the join always reports `success = true` (first conjunct),
unmatched records being diagnostics only. -/
theorem c3_variant_join_consumption_and_order (ebird : List EBirdRawRecord)
    (ibp : List IBPRawRecord) (opts : JoinOptions) :
    (joinByScientificNameVariants ebird ibp opts).success = true ∧
    ((joinByScientificNameVariants ebird ibp opts).stats.successfulMatches +
        (joinByScientificNameVariants ebird ibp
          opts).stats.unmatchedIBPRecords =
      (joinByScientificNameVariants ebird ibp opts).stats.totalIBPRecords) ∧
    ((joinByScientificNameVariants
        [⟨"issf", "icegul3", "Larus glaucoides kumlieni", "Iceland Gull"⟩]
        [⟨"ICGU", "Larus glaucoides", "Iceland Gull", "LARGLA"⟩]
        {}).matched.map (fun m => m.alpha4Code) = ["ICGU"]) ∧
    ((joinByScientificNameVariants
        [⟨"species", "icegul", "Larus glaucoides", "Iceland Gull"⟩]
        [⟨"KUGU", "Larus glaucoides kumlieni", "Kumlien Gull", "LGKU"⟩,
         ⟨"ICGU", "Larus glaucoides", "Iceland Gull", "LARGLA"⟩]
        {}).matched.map (fun m => m.alpha4Code) = ["ICGU"]) := by
  refine ⟨rfl, ?_, ?_, ?_⟩
  · have h := varFold_consumed_invariant ibp opts (ebirdPrioritySorted ebird)
      ⟨[], [], []⟩ (by simp) (by simp) (by simp)
    obtain ⟨hnd, hbd, hlen⟩ := h
    have hcount := length_unconsumed ibp _ hnd hbd
    simp only [joinByScientificNameVariants, varUnmatchedIBP, varFinal] at *
    omega
  · simp only [joinByScientificNameVariants, varFinal, ebirdPrioritySorted]
    rw [mergeSort_rankLe_eq]
    decide
  · simp only [joinByScientificNameVariants, varFinal, ebirdPrioritySorted]
    rw [mergeSort_rankLe_eq]
    decide

/-- C4: the checklist side is processed in priority order — the sorted list
is rank-monotone (`species` rank 0, `issf` rank 1, slash/hybrid rank 2) and
equals the concatenation of the three rank classes each in original input
order (stable sort, so the output is a deterministic function of the
inputs); consequently a higher-priority record claims a contended banding
record (third conjunct: the `species` record wins over the `slash` record
listed before it), and among equal ranks the earlier input row wins
(fourth conjunct). -/
theorem c4_priority_order_stable (ebird : List EBirdRawRecord) :
    (ebirdPrioritySorted ebird).Pairwise
      (fun a b => rankOf a ≤ rankOf b) ∧
    ebirdPrioritySorted ebird = rankBuckets ebird ∧
    ((joinByScientificNameVariants
        [⟨"slash", "amecrx", "Corvus brachyrhynchos", "crow sp."⟩,
         ⟨"species", "amecro", "Corvus brachyrhynchos", "American Crow"⟩]
        [⟨"AMCR", "Corvus brachyrhynchos", "American Crow", "CORAME"⟩]
        {}).matched.map (fun m => m.ebird6Code) = ["amecro"] ∧
      (joinByScientificNameVariants
        [⟨"slash", "amecrx", "Corvus brachyrhynchos", "crow sp."⟩,
         ⟨"species", "amecro", "Corvus brachyrhynchos", "American Crow"⟩]
        [⟨"AMCR", "Corvus brachyrhynchos", "American Crow", "CORAME"⟩]
        {}).unmatchedEBird =
        [⟨"slash", "amecrx", "Corvus brachyrhynchos", "crow sp."⟩]) ∧
    ((joinByScientificNameVariants
        [⟨"species", "amecr1", "Corvus brachyrhynchos", "Crow One"⟩,
         ⟨"species", "amecr2", "Corvus brachyrhynchos", "Crow Two"⟩]
        [⟨"AMCR", "Corvus brachyrhynchos", "American Crow", "CORAME"⟩]
        {}).matched.map (fun m => m.ebird6Code) = ["amecr1"] ∧
      (joinByScientificNameVariants
        [⟨"species", "amecr1", "Corvus brachyrhynchos", "Crow One"⟩,
         ⟨"species", "amecr2", "Corvus brachyrhynchos", "Crow Two"⟩]
        [⟨"AMCR", "Corvus brachyrhynchos", "American Crow", "CORAME"⟩]
        {}).unmatchedEBird =
        [⟨"species", "amecr2", "Corvus brachyrhynchos", "Crow Two"⟩]) := by
  refine ⟨?_, mergeSort_rankLe_eq ebird, ?_, ?_⟩
  · have hs := @List.sorted_mergeSort EBirdRawRecord rankLe
      rankLe_trans rankLe_total ebird
    exact hs.imp (fun h => by simpa [rankLe] using h)
  · constructor <;>
      (simp only [joinByScientificNameVariants, varFinal, ebirdPrioritySorted]
       rw [mergeSort_rankLe_eq]
       decide)
  · constructor <;>
      (simp only [joinByScientificNameVariants, varFinal, ebirdPrioritySorted]
       rw [mergeSort_rankLe_eq]
       decide)

/-- C10: checklist records whose category is excluded by the variant policy
vanish from both outputs: matched and unmatchedEBird together account for
exactly the policy-allowed records (first conjunct), every unmatched
checklist record is policy-allowed (second conjunct), every matched record
stems from a policy-allowed checklist record (third conjunct), and
`stats.totalEBirdRecords` still counts the whole input (fourth conjunct).
Excluded records consume no banding record: by
`c3_variant_join_consumption_and_order` consumed banding records equal
matches, and matches stem only from allowed records. -/
theorem c10_variant_policy_filtering (ebird : List EBirdRawRecord)
    (ibp : List IBPRawRecord) (opts : JoinOptions) :
    ((joinByScientificNameVariants ebird ibp opts).matched.length +
        (joinByScientificNameVariants ebird ibp opts).unmatchedEBird.length =
      (ebird.filter
        (fun e => policyAllows opts.variantPolicy e.category)).length) ∧
    (∀ x ∈ (joinByScientificNameVariants ebird ibp opts).unmatchedEBird,
      policyAllows opts.variantPolicy x.category = true) ∧
    (∀ m ∈ (joinByScientificNameVariants ebird ibp opts).matched,
      ∃ e ∈ ebird, policyAllows opts.variantPolicy e.category = true ∧
        m.ebird6Code = e.speciesCode ∧ m.scientificName = e.scientificName ∧
        m.commonNameEBird = e.commonName) ∧
    (joinByScientificNameVariants ebird ibp opts).stats.totalEBirdRecords =
      ebird.length := by
  have h := varFold_output_invariant ibp opts (ebirdPrioritySorted ebird)
    ⟨[], [], []⟩
  have hperm := List.mergeSort_perm ebird rankLe
  refine ⟨?_, ?_, ?_, rfl⟩
  · have h1 := h.1
    have hflen := (hperm.filter
      (fun e => policyAllows opts.variantPolicy e.category)).length_eq
    simp only [List.length_nil, Nat.zero_add, ebirdPrioritySorted] at h1
    show (varFinal ebird ibp opts).matched.length +
        (varFinal ebird ibp opts).unmatchedEBird.length = _
    unfold varFinal ebirdPrioritySorted
    omega
  · intro x hx
    simp only [joinByScientificNameVariants, varFinal] at hx
    rcases h.2.1 x hx with hx | ⟨hx1, _⟩
    · simp at hx
    · exact hx1
  · intro m hm
    simp only [joinByScientificNameVariants, varFinal] at hm
    rcases h.2.2 m hm with hm | ⟨e, he, hrest⟩
    · simp at hm
    · exact ⟨e, hperm.mem_iff.mp he, hrest⟩

/-- C10 witness: the filtering behaviour at a concrete join — a `species`
policy with a `species` and a `slash` record and no banding records: the
two counting conjuncts instantiated, and the membership conjunct
discharged at the concrete unmatched record. -/
theorem c10_variant_policy_filtering_witness :
    ((joinByScientificNameVariants
        [⟨"species", "amecro", "Corvus brachyrhynchos", "American Crow"⟩,
         ⟨"slash", "amecrx", "Corvus brachyrhynchos", "crow sp."⟩]
        [] ⟨false, true, false, .species⟩).matched.length +
        (joinByScientificNameVariants
        [⟨"species", "amecro", "Corvus brachyrhynchos", "American Crow"⟩,
         ⟨"slash", "amecrx", "Corvus brachyrhynchos", "crow sp."⟩]
        [] ⟨false, true, false, .species⟩).unmatchedEBird.length =
      ([⟨"species", "amecro", "Corvus brachyrhynchos", "American Crow"⟩,
        ⟨"slash", "amecrx", "Corvus brachyrhynchos",
          "crow sp."⟩].filter (fun e : EBirdRawRecord =>
        policyAllows VariantPolicy.species e.category)).length) ∧
    policyAllows VariantPolicy.species "species" = true := by
  constructor
  · exact (c10_variant_policy_filtering
      [⟨"species", "amecro", "Corvus brachyrhynchos", "American Crow"⟩,
       ⟨"slash", "amecrx", "Corvus brachyrhynchos", "crow sp."⟩]
      [] ⟨false, true, false, .species⟩).1
  · have h := (c10_variant_policy_filtering
      [⟨"species", "amecro", "Corvus brachyrhynchos", "American Crow"⟩,
       ⟨"slash", "amecrx", "Corvus brachyrhynchos", "crow sp."⟩]
      [] ⟨false, true, false, .species⟩).2.1
      ⟨"species", "amecro", "Corvus brachyrhynchos", "American Crow"⟩
    apply h
    simp only [joinByScientificNameVariants, varFinal, ebirdPrioritySorted]
    rw [mergeSort_rankLe_eq]
    decide


/-! ## Exact join: duplicates, strict mode, last-write-wins (C6) -/

theorem dupFold_dups_mono (names : List String) :
    ∀ (dups seen : List String) (n : String), n ∈ dups →
      n ∈ (names.foldl dupStep (dups, seen)).1 := by
  induction names with
  | nil => intro dups seen n h; exact h
  | cons m rest ih =>
    intro dups seen n h
    rw [List.foldl_cons]
    unfold dupStep
    dsimp only
    split_ifs with h1 h2
    · exact ih _ _ n (List.mem_append_left _ h)
    · exact ih _ _ n (List.mem_append_left _ h)
    · exact ih _ _ n h
    · exact ih _ _ n h

theorem dupFold_seen_hit (names : List String) :
    ∀ (dups seen : List String) (n : String), n ∈ seen → n ∈ names →
      n ∈ (names.foldl dupStep (dups, seen)).1 := by
  induction names with
  | nil => intro dups seen n _ h; simp at h
  | cons m rest ih =>
    intro dups seen n hseen hmem
    rw [List.foldl_cons]
    rcases List.mem_cons.mp hmem with rfl | hmem
    · unfold dupStep
      dsimp only
      by_cases hd : n ∈ dups
      · rw [if_neg (by simp [hd]), if_pos hseen]
        exact dupFold_dups_mono rest _ _ n hd
      · rw [if_pos ⟨hseen, hd⟩, if_pos hseen]
        exact dupFold_dups_mono rest _ _ n (List.mem_append_right _ (by simp))
    · unfold dupStep
      dsimp only
      split_ifs with h1 h2
      · exact ih _ _ n hseen hmem
      · exact ih _ _ n (List.mem_append_left _ hseen) hmem
      · exact ih _ _ n hseen hmem
      · exact ih _ _ n (List.mem_append_left _ hseen) hmem

theorem dupFold_count_two (names : List String) :
    ∀ (dups seen : List String) (n : String), 2 ≤ names.count n →
      n ∈ (names.foldl dupStep (dups, seen)).1 := by
  induction names with
  | nil => intro dups seen n h; simp at h
  | cons m rest ih =>
    intro dups seen n h
    rw [List.foldl_cons]
    by_cases hnm : n = m
    · subst hnm
      have hrest : n ∈ rest := by
        rw [List.count_cons_self] at h
        exact List.count_pos_iff.mp (by omega)
      unfold dupStep
      dsimp only
      refine dupFold_seen_hit rest _ _ n ?_ hrest
      by_cases hs : n ∈ seen
      · rw [if_pos hs]; exact hs
      · rw [if_neg hs]; exact List.mem_append_right _ (by simp)
    · have hrest : 2 ≤ rest.count n := by
        rw [List.count_cons_of_ne hnm] at h
        exact h
      exact ih _ _ n hrest

theorem firstDedup_fold_mem (l : List String) :
    ∀ (acc : List String) (n : String),
      (n ∈ l.foldl (fun acc s => if s ∈ acc then acc else acc ++ [s]) acc ↔
        n ∈ acc ∨ n ∈ l) := by
  induction l with
  | nil => intro acc n; simp
  | cons m rest ih =>
    intro acc n
    rw [List.foldl_cons]
    by_cases hm : m ∈ acc
    · rw [if_pos hm, ih]
      constructor
      · rintro (h | h)
        · exact Or.inl h
        · exact Or.inr (List.mem_cons_of_mem m h)
      · rintro (h | h)
        · exact Or.inl h
        · rcases List.mem_cons.mp h with rfl | h
          · exact Or.inl hm
          · exact Or.inr h
    · rw [if_neg hm, ih]
      constructor
      · rintro (h | h)
        · rcases List.mem_append.mp h with h | h
          · exact Or.inl h
          · simp only [List.mem_singleton] at h
            subst h
            exact Or.inr (List.mem_cons_self n rest)
        · exact Or.inr (List.mem_cons_of_mem m h)
      · rintro (h | h)
        · exact Or.inl (List.mem_append_left _ h)
        · rcases List.mem_cons.mp h with rfl | h
          · exact Or.inl (List.mem_append_right _ (by simp))
          · exact Or.inr h

theorem mem_firstDedup (l : List String) (n : String) :
    n ∈ firstDedup l ↔ n ∈ l := by
  unfold firstDedup
  rw [firstDedup_fold_mem]
  simp

/-- C6: in the exact join, a scientific name occurring at least twice on
one side is flagged in `duplicateScientificNames` (first conjunct); with
`strictMode` any duplicate makes the whole join return `success = false`
with zero matched records (second conjunct); without `strictMode`
duplicates are tolerated, and it is the later-seen record of a repeated
name — the last-write-wins entry of the lookup index — whose fields appear
in the matched record (third conjunct, stated via the reverse-search
lookups `lastEBirdWith`/`lastIBPWith`). -/
theorem c6_exact_join_duplicates (ebird : List EBirdRawRecord)
    (ibp : List IBPRawRecord) (opts : JoinOptions) :
    (∀ n : String,
      (2 ≤ (ebird.map (fun r => r.scientificName)).count n ∨
        2 ≤ (ibp.map (fun r => r.scientificName)).count n) →
      n ∈ (joinByScientificName ebird ibp opts).duplicateScientificNames) ∧
    (opts.strictMode = true → joinDuplicates ebird ibp ≠ [] →
      (joinByScientificName ebird ibp opts).success = false ∧
      (joinByScientificName ebird ibp opts).matched = []) ∧
    (opts.strictMode = false →
      ∀ (s : String) (re : EBirdRawRecord) (ri : IBPRawRecord),
        lastEBirdWith ebird s = some re → lastIBPWith ibp s = some ri →
        (⟨ri.alpha4Code, re.speciesCode, re.scientificName, re.commonName,
          ri.commonName⟩ : JoinedRecord) ∈
          (joinByScientificName ebird ibp opts).matched) := by
  refine ⟨?_, ?_, ?_⟩
  · intro n hn
    have hdup : n ∈ joinDuplicates ebird ibp := by
      unfold joinDuplicates dupPass
      rcases hn with hn | hn
      · exact dupFold_dups_mono _ _ _ n (dupFold_count_two _ _ _ n hn)
      · exact dupFold_count_two _ _ _ n hn
    unfold joinByScientificName
    split
    · rename_i hemp
      exfalso
      simp only [Bool.and_eq_true, List.isEmpty_iff] at hemp
      obtain ⟨he, hi⟩ := hemp
      subst he; subst hi
      simp at hn
    · split
      · exact hdup
      · exact hdup
  · intro hs hd
    unfold joinByScientificName
    split
    · rename_i hemp
      exfalso
      simp only [Bool.and_eq_true, List.isEmpty_iff] at hemp
      obtain ⟨he, hi⟩ := hemp
      subst he; subst hi
      exact hd rfl
    · rw [if_pos (by simp [hs, List.isEmpty_iff, hd])]
      exact ⟨rfl, rfl⟩
  · intro hs s re ri hre hri
    have hsname : re.scientificName = s := by
      have := List.find?_some hre
      simpa using this
    have hmeme : s ∈ ebird.map (fun r => r.scientificName) := by
      have hm := List.mem_reverse.mp (List.mem_of_find?_eq_some hre)
      exact List.mem_map.mpr ⟨re, hm, hsname⟩
    unfold joinByScientificName
    split
    · rename_i hemp
      exfalso
      simp only [Bool.and_eq_true, List.isEmpty_iff] at hemp
      obtain ⟨he, _⟩ := hemp
      subst he
      simp at hmeme
    · rw [if_neg (by simp [hs])]
      show _ ∈ joinMatched ebird ibp opts
      unfold joinMatched
      apply List.mem_filterMap.mpr
      refine ⟨s, ?_, ?_⟩
      · unfold allScientificNames
        rw [mem_firstDedup]
        exact List.mem_append_left _ ((mem_firstDedup _ _).mpr hmeme)
      · rw [hre, hri]
        simp [hs]

/-- C6 witness: two checklist records with the same scientific name and one
banding record — the name is flagged as a duplicate; with `strictMode` the
join aborts with zero matches; without it, the matched record carries the
later-seen checklist record's code `amecr2`. -/
theorem c6_exact_join_duplicates_witness :
    ("Corvus brachyrhynchos" ∈ (joinByScientificName
        [⟨"species", "amecr1", "Corvus brachyrhynchos", "Crow One"⟩,
         ⟨"species", "amecr2", "Corvus brachyrhynchos", "Crow Two"⟩]
        [⟨"AMCR", "Corvus brachyrhynchos", "American Crow", "CORAME"⟩]
        {}).duplicateScientificNames) ∧
    ((joinByScientificName
        [⟨"species", "amecr1", "Corvus brachyrhynchos", "Crow One"⟩,
         ⟨"species", "amecr2", "Corvus brachyrhynchos", "Crow Two"⟩]
        [⟨"AMCR", "Corvus brachyrhynchos", "American Crow", "CORAME"⟩]
        ⟨true, true, false, .all⟩).success = false ∧
      (joinByScientificName
        [⟨"species", "amecr1", "Corvus brachyrhynchos", "Crow One"⟩,
         ⟨"species", "amecr2", "Corvus brachyrhynchos", "Crow Two"⟩]
        [⟨"AMCR", "Corvus brachyrhynchos", "American Crow", "CORAME"⟩]
        ⟨true, true, false, .all⟩).matched = []) ∧
    ((⟨"AMCR", "amecr2", "Corvus brachyrhynchos", "Crow Two",
        "American Crow"⟩ : JoinedRecord) ∈
      (joinByScientificName
        [⟨"species", "amecr1", "Corvus brachyrhynchos", "Crow One"⟩,
         ⟨"species", "amecr2", "Corvus brachyrhynchos", "Crow Two"⟩]
        [⟨"AMCR", "Corvus brachyrhynchos", "American Crow", "CORAME"⟩]
        {}).matched) := by
  refine ⟨?_, ?_, ?_⟩
  · exact (c6_exact_join_duplicates
      [⟨"species", "amecr1", "Corvus brachyrhynchos", "Crow One"⟩,
       ⟨"species", "amecr2", "Corvus brachyrhynchos", "Crow Two"⟩]
      [⟨"AMCR", "Corvus brachyrhynchos", "American Crow", "CORAME"⟩]
      {}).1 "Corvus brachyrhynchos" (Or.inl (by decide))
  · exact (c6_exact_join_duplicates
      [⟨"species", "amecr1", "Corvus brachyrhynchos", "Crow One"⟩,
       ⟨"species", "amecr2", "Corvus brachyrhynchos", "Crow Two"⟩]
      [⟨"AMCR", "Corvus brachyrhynchos", "American Crow", "CORAME"⟩]
      ⟨true, true, false, .all⟩).2.1 rfl (by decide)
  · exact (c6_exact_join_duplicates
      [⟨"species", "amecr1", "Corvus brachyrhynchos", "Crow One"⟩,
       ⟨"species", "amecr2", "Corvus brachyrhynchos", "Crow Two"⟩]
      [⟨"AMCR", "Corvus brachyrhynchos", "American Crow", "CORAME"⟩]
      {}).2.2 rfl "Corvus brachyrhynchos"
      ⟨"species", "amecr2", "Corvus brachyrhynchos", "Crow Two"⟩
      ⟨"AMCR", "Corvus brachyrhynchos", "American Crow", "CORAME"⟩
      (by decide) (by decide)

end GullTo
